import Mathlib

/-!
Verification of the rexif EXIF metadata library against its design
specification.  The Rust sources are shallowly embedded: byte buffers are
`List Nat` (each element a byte value), machine integers are `Nat`/`Int`
with explicit reductions modulo `2 ^ w` where overflow matters, fallible
functions return `Option`/`Except`, and a Rust function that can panic
(out-of-range slice indexing, `unwrap`) returns the `Ret` type below so
that panics are observable.  IEEE-754 values are carried as their raw bit
patterns; no float arithmetic from the source is modelled.
-/

namespace Rexif

/-- Result of a Rust computation that may panic.  `panic` models an
out-of-range slice index or a failed `unwrap`; `val` is a normal return. -/
inductive Ret (α : Type) where
  | panic : Ret α
  | val : α → Ret α
deriving DecidableEq, Repr

/-- `rational.rs`: signed rational (`i32` numerator and denominator).
The `value()` float conversion is not modelled (IEEE-754). -/
structure IRational where
  numerator : Int
  denominator : Int
deriving DecidableEq, Repr

/-- `rational.rs`: unsigned rational (`u32` numerator and denominator). -/
structure URational where
  numerator : Nat
  denominator : Nat
deriving DecidableEq, Repr

/-- Rust range slicing `&raw[a..b]`: yields the sub-list when the range is
within bounds, `none` (a panic) otherwise. -/
def idx_slice (raw : List Nat) (a b : Nat) : Option (List Nat) :=
  if a ≤ b ∧ b ≤ raw.length then some ((raw.drop a).take (b - a)) else none

/-- Rust `raw.get(..n)`: the first `n` bytes, or `none` when the slice is
shorter than `n` (a checked, non-panicking lookup). -/
def slice_to (raw : List Nat) (n : Nat) : Option (List Nat) :=
  if n ≤ raw.length then some (raw.take n) else none

/-- `lowlevel.rs read_u16`: first two bytes as a `u16` in the given
endianness; `none` when fewer than two bytes are available. -/
def read_u16 (le : Bool) (raw : List Nat) : Option Nat :=
  match raw with
  | b0 :: b1 :: _ => some (if le then b0 + 256 * b1 else b1 + 256 * b0)
  | _ => none

/-- `lowlevel.rs read_i16`: like `read_u16` but two's-complement signed. -/
def read_i16 (le : Bool) (raw : List Nat) : Option Int :=
  match read_u16 le raw with
  | some u => some (if u < 2 ^ 15 then (u : Int) else (u : Int) - 2 ^ 16)
  | none => none

/-- `lowlevel.rs read_u32`: first four bytes as a `u32` in the given
endianness; `none` when fewer than four bytes are available. -/
def read_u32 (le : Bool) (raw : List Nat) : Option Nat :=
  match raw with
  | b0 :: b1 :: b2 :: b3 :: _ =>
      some (if le then b0 + 256 * b1 + 65536 * b2 + 16777216 * b3
            else b3 + 256 * b2 + 65536 * b1 + 16777216 * b0)
  | _ => none

/-- `lowlevel.rs read_i32`: like `read_u32` but two's-complement signed. -/
def read_i32 (le : Bool) (raw : List Nat) : Option Int :=
  match read_u32 le raw with
  | some u => some (if u < 2 ^ 31 then (u : Int) else (u : Int) - 2 ^ 32)
  | none => none

/-- `lowlevel.rs read_f32`: the source always decodes little-endian and the
result is an `f32`; we carry the 32-bit pattern undecoded. -/
def read_f32 (raw : List Nat) : Option Nat :=
  match raw with
  | b0 :: b1 :: b2 :: b3 :: _ => some (b0 + 256 * b1 + 65536 * b2 + 16777216 * b3)
  | _ => none

/-- `lowlevel.rs read_f64`: eight little-endian bytes, carried as the
64-bit pattern undecoded. -/
def read_f64 (raw : List Nat) : Option Nat :=
  match raw with
  | b0 :: b1 :: b2 :: b3 :: b4 :: b5 :: b6 :: b7 :: _ =>
      some (b0 + 256 * b1 + 65536 * b2 + 16777216 * b3 + 2 ^ 32 * b4 +
            2 ^ 40 * b5 + 2 ^ 48 * b6 + 2 ^ 56 * b7)
  | _ => none

/-- `lowlevel.rs read_urational`: reads numerator from `&raw[0..4]` and
denominator from `&raw[4..8]`.  The range indexing panics when `raw` is
shorter than the sliced range, hence the `Ret` result. -/
def read_urational (le : Bool) (raw : List Nat) : Ret (Option URational) :=
  match idx_slice raw 0 4 with
  | none => .panic
  | some s0 =>
    match read_u32 le s0 with
    | none => .val none
    | some n =>
      match idx_slice raw 4 8 with
      | none => .panic
      | some s1 =>
        match read_u32 le s1 with
        | none => .val none
        | some d => .val (some ⟨n, d⟩)

/-- `lowlevel.rs read_irational`: signed variant of `read_urational`, with
the same panicking range indexing. -/
def read_irational (le : Bool) (raw : List Nat) : Ret (Option IRational) :=
  match idx_slice raw 0 4 with
  | none => .panic
  | some s0 =>
    match read_i32 le s0 with
    | none => .val none
    | some n =>
      match idx_slice raw 4 8 with
      | none => .panic
      | some s1 =>
        match read_i32 le s1 with
        | none => .val none
        | some d => .val (some ⟨n, d⟩)

/-- `usize::checked_mul` on a 64-bit target. -/
def checked_mul (a b : Nat) : Option Nat :=
  if a * b < 2 ^ 64 then some (a * b) else none

/-- Rust `chunks_exact(size)`: the maximal list of consecutive `size`-byte
chunks.  (The source never calls it with `size = 0`, which would panic in
Rust; here that unreached case yields `[]`.) -/
def chunks_exact (size : Nat) (l : List Nat) : List (List Nat) :=
  if h : 0 < size ∧ size ≤ l.length then
    l.take size :: chunks_exact size (l.drop size)
  else []
termination_by l.length
decreasing_by simp only [List.length_drop]; omega

/-- Rust iterator `.map(convert)` over chunks where `convert` carries an
`unwrap`: `none` is the panic of the first failing conversion. -/
def map_unwrap {T : Type} (convert : List Nat → Option T) :
    List (List Nat) → Option (List T)
  | [] => some []
  | c :: rest =>
    match convert c, map_unwrap convert rest with
    | some v, some out => some (v :: out)
    | _, _ => none

/-- `lowlevel.rs read_elements`: checked `size * count` multiplication,
all-or-nothing bounds check, then per-chunk conversion.  `convert`
returning `none` models the `.unwrap()` panic in the source's closures
(which also absorbs a panic inside the closure itself). -/
def read_elements {T : Type} (size count : Nat) (raw : List Nat)
    (convert : List Nat → Option T) : Ret (Option (List T)) :=
  match checked_mul size count with
  | none => .val none
  | some byte_size =>
    match slice_to raw byte_size with
    | none => .val none
    | some bytes =>
      match map_unwrap convert ((chunks_exact size bytes).take count) with
      | none => .panic
      | some out => .val (some out)

/-- A byte reinterpreted as Rust `i8` (two's complement). -/
def to_i8 (b : Nat) : Int :=
  if b < 128 then (b : Int) else (b : Int) - 256

/-- `lowlevel.rs read_i8_array`: `raw.get(..count)` then a cast of each
byte; cannot panic. -/
def read_i8_array (count : Nat) (raw : List Nat) : Option (List Int) :=
  match slice_to raw count with
  | none => none
  | some bytes => some (bytes.map to_i8)

/-- `lowlevel.rs read_u16_array`. -/
def read_u16_array (le : Bool) (count : Nat) (raw : List Nat) : Ret (Option (List Nat)) :=
  read_elements 2 count raw (read_u16 le)

/-- `lowlevel.rs read_i16_array`. -/
def read_i16_array (le : Bool) (count : Nat) (raw : List Nat) : Ret (Option (List Int)) :=
  read_elements 2 count raw (read_i16 le)

/-- `lowlevel.rs read_u32_array`. -/
def read_u32_array (le : Bool) (count : Nat) (raw : List Nat) : Ret (Option (List Nat)) :=
  read_elements 4 count raw (read_u32 le)

/-- `lowlevel.rs read_i32_array`. -/
def read_i32_array (le : Bool) (count : Nat) (raw : List Nat) : Ret (Option (List Int)) :=
  read_elements 4 count raw (read_i32 le)

/-- `lowlevel.rs read_f32_array` (bit patterns, see `read_f32`). -/
def read_f32_array (count : Nat) (raw : List Nat) : Ret (Option (List Nat)) :=
  read_elements 4 count raw read_f32

/-- `lowlevel.rs read_f64_array` (bit patterns, see `read_f64`). -/
def read_f64_array (count : Nat) (raw : List Nat) : Ret (Option (List Nat)) :=
  read_elements 8 count raw read_f64

/-- `lowlevel.rs read_urational_array`: the closure is
`read_urational(le, ch).unwrap()`; both a panic inside `read_urational`
and a `None` unwrap map to the `convert` failure. -/
def read_urational_array (le : Bool) (count : Nat) (raw : List Nat) :
    Ret (Option (List URational)) :=
  read_elements 8 count raw (fun ch =>
    match read_urational le ch with
    | .val (some r) => some r
    | _ => none)

/-- `lowlevel.rs read_irational_array`. -/
def read_irational_array (le : Bool) (count : Nat) (raw : List Nat) :
    Ret (Option (List IRational)) :=
  read_elements 8 count raw (fun ch =>
    match read_irational le ch with
    | .val (some r) => some r
    | _ => none)

/-- `types.rs IfdFormat`: on-disk element formats of an IFD entry. -/
inductive IfdFormat where
  | Unknown
  | U8
  | Ascii
  | U16
  | U32
  | URational
  | I8
  | Undefined
  | I16
  | I32
  | IRational
  | F32
  | F64
deriving DecidableEq, Repr

/-- The `repr(u16)` discriminant of `IfdFormat` (Rust `as u16`). -/
def IfdFormat.code : IfdFormat → Nat
  | .Unknown => 0
  | .U8 => 1
  | .Ascii => 2
  | .U16 => 3
  | .U32 => 4
  | .URational => 5
  | .I8 => 6
  | .Undefined => 7
  | .I16 => 8
  | .I32 => 9
  | .IRational => 10
  | .F32 => 11
  | .F64 => 12

/-- `types_impl.rs IfdFormat::new`: decode a format code, mapping every
unassigned code to `Unknown`. -/
def IfdFormat.new (code : Nat) : IfdFormat :=
  match code with
  | 1 => .U8
  | 2 => .Ascii
  | 3 => .U16
  | 4 => .U32
  | 5 => .URational
  | 6 => .I8
  | 7 => .Undefined
  | 8 => .I16
  | 9 => .I32
  | 10 => .IRational
  | 11 => .F32
  | 12 => .F64
  | _ => .Unknown

/-- `types.rs Namespace`: tag namespaces (standard vs manufacturer). -/
inductive Namespace where
  | Standard
  | Nikon
  | Canon
deriving DecidableEq, Repr

/-- `types.rs IfdEntry`: one parsed 12-byte IFD record plus its resolved
payload bytes.  The Rust field `namespace` is spelled `nspace` because
`namespace` is a Lean keyword. -/
structure IfdEntry where
  nspace : Namespace
  /-- `u16` tag code. -/
  tag : Nat
  format : IfdFormat
  /-- `u32` element count. -/
  count : Nat
  data : List Nat
  ifd_data : List Nat
  ext_data : List Nat
  le : Bool
deriving DecidableEq, Repr

/-- `types_impl.rs IfdEntry::try_data_as_offset`: the 4 inline bytes read
as a `u32` offset in the entry's endianness. -/
def IfdEntry.try_data_as_offset (e : IfdEntry) : Option Nat :=
  read_u32 e.le e.ifd_data

/-- `types_impl.rs IfdEntry::size`: per-element byte width of the format. -/
def IfdEntry.size (e : IfdEntry) : Nat :=
  match e.format with
  | .U8 => 1
  | .Ascii => 1
  | .U16 => 2
  | .U32 => 4
  | .URational => 8
  | .I8 => 1
  | .Undefined => 1
  | .I16 => 2
  | .I32 => 4
  | .IRational => 8
  | .F32 => 4
  | .F64 => 8
  | .Unknown => 1

/-- `types_impl.rs IfdEntry::length`: element size times element count. -/
def IfdEntry.length (e : IfdEntry) : Nat :=
  e.size * e.count

/-- `types_impl.rs IfdEntry::in_ifd`: payload fits in the 4 inline bytes. -/
def IfdEntry.in_ifd (e : IfdEntry) : Bool :=
  e.length ≤ 4

/-- Rust `contents.get(a..b)`: checked range lookup, `none` when out of
bounds (no panic). -/
def get_range (l : List Nat) (a b : Nat) : Option (List Nat) :=
  if a ≤ b ∧ b ≤ l.length then some ((l.drop a).take (b - a)) else none

/-- `types_impl.rs IfdEntry::copy_data`: resolve the payload either from
the inline bytes or from the file at the decoded offset.  Returns the
updated entry and the success flag. -/
def IfdEntry.copy_data (e : IfdEntry) (contents : List Nat) : IfdEntry × Bool :=
  if e.in_ifd then
    ({ e with data := e.ifd_data }, true)
  else
    match e.try_data_as_offset with
    | none => (e, false)
    | some offset =>
      match get_range contents offset (offset + e.length) with
      | some ext => ({ e with ext_data := ext, data := ext }, true)
      | none => (e, false)

/-- `types.rs ExifError` (the `IoError` payload is reduced to a string;
nothing here depends on it). -/
inductive ExifError where
  | IoError (msg : String)
  | FileTypeUnknown
  | JpegWithoutExif (msg : String)
  | TiffTruncated
  | TiffBadPreamble (msg : String)
  | IfdTruncated
  | ExifIfdTruncated (msg : String)
  | ExifIfdEntryNotFound
  | UnsupportedNamespace
  | MissingExifOffset
deriving DecidableEq, Repr

/-- `image.rs FileType`. -/
inductive FileType where
  | Unknown
  | JPEG
  | TIFF
deriving DecidableEq, Repr

/-- `image.rs detect_type`: classify a buffer from its magic bytes. -/
def detect_type (contents : List Nat) : FileType :=
  if contents.length < 11 then .Unknown
  else if contents.take 3 = [0xff, 0xd8, 0xff] ∧
          (contents.drop 6).take 5 = [0x4a, 0x46, 0x49, 0x46, 0] then .JPEG
  else if contents.take 3 = [0xff, 0xd8, 0xff] ∧
          (contents.drop 6).take 5 = [0x45, 0x78, 0x69, 0x66, 0] then .JPEG
  else if contents.take 4 = [0x49, 0x49, 42, 0] then .TIFF
  else if contents.take 4 = [0x4d, 0x4d, 0, 42] then .TIFF
  else .Unknown

/-- The literal six-byte `Exif\x00\x00` APP1 tag (`types.rs EXIF_HEADER`). -/
def exif_header : List Nat := [0x45, 0x78, 0x69, 0x66, 0, 0]

/-- The segment-scanning loop of `image.rs find_embedded_tiff_in_jpeg`,
entered with the running `offset`.  Each iteration reads a 2-byte marker
and a 2-byte big-endian size, validates them, and either returns the APP1
payload location, fails, or skips the segment. -/
def find_tiff_loop (contents : List Nat) (offset : Nat) : Except ExifError (Nat × Nat) :=
  if h : offset < contents.length then
    if contents.length < offset + 4 then
      .error (.JpegWithoutExif "JPEG truncated in marker header")
    else
      let marker := 256 * contents.getD offset 0 + contents.getD (offset + 1) 0
      if marker < 0xff00 then .error (.JpegWithoutExif "Invalid marker")
      else
        let off2 := offset + 2
        let size := 256 * contents.getD off2 0 + contents.getD (off2 + 1) 0
        if size < 2 then
          .error (.JpegWithoutExif "JPEG marker size must be at least 2 (because of the size word)")
        else if contents.length < off2 + size then
          .error (.JpegWithoutExif "JPEG truncated in marker body")
        else if marker = 0xffe1 then
          if size < 8 then .error (.JpegWithoutExif "EXIF preamble truncated")
          else if (contents.drop (off2 + 2)).take 6 ≠ exif_header then
            .error (.JpegWithoutExif "EXIF preamble unrecognized")
          else
            .ok (off2 + 8, size - 8)
        else if marker = 0xffda then
          .error (.JpegWithoutExif "Last mark found and no EXIF")
        else
          find_tiff_loop contents (off2 + size)
  else .error (.JpegWithoutExif "Scan past EOF and no EXIF found")
termination_by contents.length - offset
decreasing_by omega

/-- `image.rs find_embedded_tiff_in_jpeg`: scan JPEG segments starting
right after the 2-byte SOI marker. -/
def find_embedded_tiff_in_jpeg (contents : List Nat) : Except ExifError (Nat × Nat) :=
  find_tiff_loop contents 2

/-- `types.rs ExifTag`: the `repr(u32)` enum of recognized tags is carried
by its discriminant value; all discriminants in the source are distinct,
so the derived variant equality coincides with equality of these codes. -/
def ExifTag := Nat
deriving DecidableEq, Repr

/-- `ExifTag::ExifOffset` (discriminant `0x8769`). -/
def ExifTag.ExifOffset : ExifTag := (0x8769 : Nat)

/-- `ExifTag::GPSOffset` (discriminant `0x8825`). -/
def ExifTag.GPSOffset : ExifTag := (0x8825 : Nat)

/-- `ExifTag::Orientation` (discriminant `0x0112`). -/
def ExifTag.Orientation : ExifTag := (0x0112 : Nat)

/-- `ExifTag::ExifVersion` (discriminant `0x9000`). -/
def ExifTag.ExifVersion : ExifTag := (0x9000 : Nat)

/-- `ExifTag::GPSLatitudeRef` (discriminant `0x1`). -/
def ExifTag.GPSLatitudeRef : ExifTag := (0x1 : Nat)

/-- `types.rs TagValue`: decoded tag payloads.  `F32`/`F64` carry raw bit
patterns (see the module comment); integer vectors are `Nat`/`Int` lists. -/
inductive TagValue where
  | U8 (v : List Nat)
  | Ascii (s : String)
  | U16 (v : List Nat)
  | U32 (v : List Nat)
  | URational (v : List URational)
  | I8 (v : List Int)
  | Undefined (v : List Nat) (le : Bool)
  | I16 (v : List Int)
  | I32 (v : List Int)
  | IRational (v : List IRational)
  | F32 (bits : List Nat)
  | F64 (bits : List Nat)
  | Unknown (v : List Nat) (le : Bool)
  | Invalid (v : List Nat) (le : Bool) (fmt : Nat) (count : Nat)
deriving DecidableEq, Repr

/-- Modelled from the spec: `tag_value_eq` lives in `ifdformat.rs`, which
is not among the provided sources; per the spec, non-pointer entry
equality "compares resolved value and display string", so the resolved
value comparison is modelled as structural equality of `TagValue`. -/
def tag_value_eq (a b : TagValue) : Bool :=
  a = b

/-- `types.rs IfdKind`: which directory an entry belongs to. -/
inductive IfdKind where
  | Ifd0
  | Ifd1
  | Exif
  | Gps
  | Makernote
  | Interoperability
deriving DecidableEq, Repr

/-- `types.rs ExifEntry`: a decoded, semantically labelled entry.  The
Rust field `namespace` is spelled `nspace`. -/
structure ExifEntry where
  nspace : Namespace
  ifd : IfdEntry
  tag : ExifTag
  value : TagValue
  unit : String
  value_more_readable : String
  kind : IfdKind
deriving DecidableEq, Repr

/-- `types.rs impl PartialEq for IfdEntry`: the data comparison is guarded
by `self.in_ifd() && !self.tag == ExifTag::ExifOffset as u16 && !self.tag
== ExifTag::GPSOffset as u16` — `!` binds tighter than `==` in Rust, so
both equality tests compare the bitwise complement of the `u16` tag
(modelled as `65535 - tag`, identical on `u16` values) with a constant. -/
def IfdEntry.eq_partial (a b : IfdEntry) : Bool :=
  let data_eq :=
    if a.in_ifd ∧ 65535 - a.tag = 0x8769 ∧ 65535 - a.tag = 0x8825 then
      a.data = b.data ∧ a.ifd_data = b.ifd_data ∧ a.ext_data = b.ext_data
    else true
  a.nspace = b.nspace ∧ a.tag = b.tag ∧ a.count = b.count ∧ data_eq ∧ a.le = b.le

/-- `types.rs impl PartialEq for ExifEntry`: directory-pointer tags are
always value-equal; other tags compare the display string and the decoded
value; all tags additionally compare namespace, embedded IFD entry, tag,
unit and kind. -/
def ExifEntry.eq_partial (a b : ExifEntry) : Bool :=
  let value_eq :=
    if a.tag = ExifTag.ExifOffset ∨ a.tag = ExifTag.GPSOffset then true
    else a.value_more_readable = b.value_more_readable ∧ tag_value_eq a.value b.value
  a.nspace = b.nspace ∧ IfdEntry.eq_partial a.ifd b.ifd ∧ a.tag = b.tag ∧
    a.unit = b.unit ∧ a.kind = b.kind ∧ value_eq

/-- Rust `u16::to_le_bytes` / `to_be_bytes`; the value is reduced modulo
`2 ^ 16` where the source narrows with an `as u16` cast. -/
def u16_bytes (le : Bool) (v : Nat) : List Nat :=
  let v := v % 2 ^ 16
  if le then [v % 256, v / 256] else [v / 256, v % 256]

/-- Rust `u32::to_le_bytes` / `to_be_bytes`; the value is reduced modulo
`2 ^ 32` where the source narrows with an `as u32` cast. -/
def u32_bytes (le : Bool) (v : Nat) : List Nat :=
  let v := v % 2 ^ 32
  if le then [v % 256, v / 256 % 256, v / 65536 % 256, v / 16777216]
  else [v / 16777216, v / 65536 % 256, v / 256 % 256, v % 256]

/-- `types.rs Patch`: a deferred offset backfill.  `offset_pos` is stored
as a `u32` in the source (`serialized.len() as u32`). -/
structure Patch where
  offset_pos : Nat
  data : List Nat
deriving DecidableEq, Repr

/-- The backfill write
`for (place, byte) in serialized.iter_mut().skip(pos).zip(bytes)`: at most
`bytes.length` bytes are overwritten starting at `pos`, stopping at the
end of the buffer; the length never changes. -/
def write_at (s : List Nat) (pos : Nat) (bytes : List Nat) : List Nat :=
  s.take pos ++ bytes.take (s.length - pos) ++ s.drop (pos + bytes.length)

/-- `types.rs IfdEntry::serialize`: append the 12-byte record; an inline
payload is written directly into the record, an external one leaves a
4-byte placeholder and enqueues a `Patch` at the placeholder's position. -/
def IfdEntry.serialize (e : IfdEntry) (serialized : List Nat) (patches : List Patch) :
    Except ExifError (List Nat × List Patch) :=
  if e.nspace ≠ Namespace.Standard then .error .UnsupportedNamespace
  else
    let s := serialized ++ u16_bytes e.le e.tag ++ u16_bytes e.le e.format.code ++
             u32_bytes e.le e.count
    if e.in_ifd then .ok (s ++ e.data, patches)
    else .ok (s ++ [0, 0, 0, 0], patches ++ [⟨s.length % 2 ^ 32, e.data⟩])

/-- The entry loop of `types.rs ExifData::serialize_ifd`. -/
def serialize_entries (entries : List ExifEntry) (s : List Nat) (ps : List Patch) :
    Except ExifError (List Nat × List Patch) :=
  match entries with
  | [] => .ok (s, ps)
  | e :: rest =>
    match e.ifd.serialize s ps with
    | .error err => .error err
    | .ok (s', ps') => serialize_entries rest s' ps'

/-- The IFD-0 entry loop of `types.rs ExifData::serialize`: serializes
each record and tracks the data-field positions of the `ExifOffset` and
`GPSOffset` entries (`serialized.len() - DATA_WIDTH` after the record). -/
def serialize_ifd0 (entries : List ExifEntry) (s : List Nat) (ps : List Patch)
    (ep gp : Option Nat) :
    Except ExifError (List Nat × List Patch × Option Nat × Option Nat) :=
  match entries with
  | [] => .ok (s, ps, ep, gp)
  | e :: rest =>
    match e.ifd.serialize s ps with
    | .error err => .error err
    | .ok (s', ps') =>
      let ep' := if e.tag = ExifTag.ExifOffset then some (s'.length - 4) else ep
      let gp' := if e.tag = ExifTag.GPSOffset then some (s'.length - 4) else gp
      serialize_ifd0 rest s' ps' ep' gp'

/-- The patch-resolution loop of `types.rs ExifData::serialize` (also used
by `serialize_ifd`): for each patch in enqueue order, the current length
is encoded (as `u32`, in the set's endianness), the payload appended, and
the encoded start offset backfilled at the patch's recorded position. -/
def apply_patches (le : Bool) (s : List Nat) (ps : List Patch) : List Nat :=
  match ps with
  | [] => s
  | p :: rest =>
    let bytes := u32_bytes le s.length
    apply_patches le (write_at (s ++ p.data) p.offset_pos bytes) rest

/-- `types.rs ExifData::serialize_ifd` (Exif/GPS sub-directories): record
the sub-IFD's start, emit the entry count, backfill the reserved pointer
position (failing when none was recorded), emit the records, a zero
terminator, and resolve this sub-IFD's patches. -/
def ExifData.serialize_ifd (le : Bool) (serialized : List Nat)
    (entries : List ExifEntry) (pos : Option Nat) : Except ExifError (List Nat) :=
  let bytes := u32_bytes le serialized.length
  let s := serialized ++ u16_bytes le entries.length
  match pos with
  | none => .error .MissingExifOffset
  | some p =>
    let s := write_at s p bytes
    match serialize_entries entries s [] with
    | .error err => .error err
    | .ok (s', ps) => .ok (apply_patches le (s' ++ [0, 0, 0, 0]) ps)

/-- `types.rs ExifData`: MIME type, decoded entries, endianness. -/
structure ExifData where
  mime : String
  entries : List ExifEntry
  le : Bool
deriving DecidableEq, Repr

/-- The intel (little-endian) 4-byte TIFF header `II*\x00`. -/
def intel_tiff_header : List Nat := [0x49, 0x49, 0x2a, 0x00]

/-- The motorola (big-endian) 4-byte TIFF header `MM\x00*`. -/
def motorola_tiff_header : List Nat := [0x4d, 0x4d, 0x00, 0x2a]

/-- `types.rs ExifData::serialize`: TIFF header, IFD-0 offset, IFD-0
records with pointer tracking, zero next-IFD pointer, patch resolution,
optional Exif and GPS sub-directories, and the JPEG `Exif\x00\x00`
prefix for JPEG sets. -/
def ExifData.serialize (d : ExifData) : Except ExifError (List Nat) :=
  let tiff_header := if d.le then intel_tiff_header else motorola_tiff_header
  let serialized := tiff_header ++ u32_bytes d.le (tiff_header.length + 4)
  let ifd0 := d.entries.filter (fun e => e.kind = IfdKind.Ifd0)
  let ifd1 := d.entries.filter (fun e => e.kind = IfdKind.Ifd1)
  let exif := d.entries.filter (fun e => e.kind = IfdKind.Exif)
  let gps := d.entries.filter (fun e => e.kind = IfdKind.Gps)
  if ifd1 ≠ [] then .error .UnsupportedNamespace
  else
    let serialized := serialized ++ u16_bytes d.le ifd0.length
    match serialize_ifd0 ifd0 serialized [] none none with
    | .error err => .error err
    | .ok (s, ps, ep, gp) =>
      let s := apply_patches d.le (s ++ [0, 0, 0, 0]) ps
      match (if exif ≠ [] then ExifData.serialize_ifd d.le s exif ep else .ok s) with
      | .error err => .error err
      | .ok s2 =>
        match (if gps ≠ [] then ExifData.serialize_ifd d.le s2 gps gp else .ok s2) with
        | .error err => .error err
        | .ok s3 => .ok (if d.mime = "image/jpeg" then exif_header ++ s3 else s3)

/-! ## Theorems -/

/-- C10: the format-code decoder is a retraction of the format-code cast:
for every code in `1..=12`, casting `IfdFormat::new(code)` back to its
discriminant yields the same code, and every code outside `1..=12`
(including `0`) decodes to the `Unknown` variant. -/
theorem C10_format_code_retraction :
    (∀ n : Nat, 1 ≤ n → n ≤ 12 → (IfdFormat.new n).code = n) ∧
    (∀ n : Nat, n = 0 ∨ 13 ≤ n → IfdFormat.new n = IfdFormat.Unknown) := by
  constructor
  · intro n h1 h2
    interval_cases n <;> rfl
  · intro n h
    rcases h with h | h
    · subst h; rfl
    · obtain ⟨m, rfl⟩ : ∃ m, n = m + 13 := ⟨n - 13, by omega⟩
      rfl

/-- Witness for C10 at the codes 5 and 13. -/
theorem C10_witness :
    (IfdFormat.new 5).code = 5 ∧ IfdFormat.new 13 = IfdFormat.Unknown :=
  ⟨C10_format_code_retraction.1 5 (by decide) (by decide),
   C10_format_code_retraction.2 13 (Or.inr (by decide))⟩

/-- An inline `U16`-format entry with a single element: `length() = 2`,
but its 4-byte inline field is copied whole. -/
def c1_entry : IfdEntry where
  nspace := .Standard
  tag := 0x0112
  format := .U16
  count := 1
  data := []
  ifd_data := [1, 0, 0, 0]
  ext_data := []
  le := true

/-- C1 (counterexample): `copy_data` does NOT truncate the inline bytes to
`length()`.  For a `U16`/count-1 entry (`length() = 2`), the resolved
payload is the whole 4-byte inline field, so the claimed invariant
`payload.length == element_size(format) * count` fails after the call. -/
theorem C1_counterexample :
    (c1_entry.copy_data []).2 = true ∧
    (c1_entry.copy_data []).1.data = [1, 0, 0, 0] ∧
    c1_entry.size * c1_entry.count = 2 ∧
    ((c1_entry.copy_data []).1.data).length ≠ c1_entry.size * c1_entry.count := by
  refine ⟨rfl, rfl, rfl, by decide⟩

/-- C1 (amended): for an inline entry, `copy_data` succeeds and sets the
payload to the entry's 4 inline bytes UNTRUNCATED (so the invariant
`payload.length = size * count` holds only when the inline field itself
has length `length()`); for an external entry it decodes the 4 inline
bytes as a `u32` offset in the entry's endianness and copies `length()`
bytes from the file at that offset (so there the invariant does hold),
failing with no payload change whenever the offset cannot be decoded or
offset plus length exceeds the file. -/
theorem C1_copy_data_amended (e : IfdEntry) (contents : List Nat) :
    (e.in_ifd = true → e.copy_data contents = ({ e with data := e.ifd_data }, true)) ∧
    (e.in_ifd = false → e.try_data_as_offset = none → e.copy_data contents = (e, false)) ∧
    (∀ off, e.in_ifd = false → e.try_data_as_offset = some off →
      off + e.length ≤ contents.length →
      e.copy_data contents =
        ({ e with data := (contents.drop off).take e.length,
                  ext_data := (contents.drop off).take e.length }, true) ∧
        ((contents.drop off).take e.length).length = e.length) ∧
    (∀ off, e.in_ifd = false → e.try_data_as_offset = some off →
      contents.length < off + e.length → e.copy_data contents = (e, false)) := by
  refine ⟨?_, ?_, ?_, ?_⟩
  · intro h
    simp [IfdEntry.copy_data, h]
  · intro h hoff
    simp [IfdEntry.copy_data, h, hoff]
  · intro off h hoff hle
    have hrange : get_range contents off (off + e.length) =
        some ((contents.drop off).take e.length) := by
      simp [get_range, hle]
    constructor
    · simp [IfdEntry.copy_data, h, hoff, hrange]
    · simp only [List.length_take, List.length_drop]
      omega
  · intro off h hoff hgt
    have hrange : get_range contents off (off + e.length) = none := by
      simp only [get_range, ite_eq_right_iff]
      omega
    simp [IfdEntry.copy_data, h, hoff, hrange]

/-- Witness for C1's amended theorem: an external `U16`/count-3 entry
(`length() = 6`) resolved from an 8-byte file at offset 1. -/
theorem C1_amended_witness :
    ({ c1_entry with count := 3 } : IfdEntry).in_ifd = false ∧
    ({ c1_entry with count := 3 } : IfdEntry).try_data_as_offset = some 1 ∧
    IfdEntry.copy_data { c1_entry with count := 3 } [9, 1, 2, 3, 4, 5, 6, 7] =
      ({ c1_entry with count := 3, data := [1, 2, 3, 4, 5, 6], ext_data := [1, 2, 3, 4, 5, 6] },
       true) := by
  refine ⟨by decide, by decide, ?_⟩
  have h := (C1_copy_data_amended { c1_entry with count := 3 }
    [9, 1, 2, 3, 4, 5, 6, 7]).2.2.1 1 (by decide) (by decide) (by decide)
  exact h.1.trans (by decide)

/-- C3: `detect_type` classifies: any buffer of at least 11 bytes starting
with a little- or big-endian TIFF byte-order marker is TIFF; any buffer of
at least 11 bytes starting with the JPEG SOI+marker prefix `FF D8 FF` and
carrying `JFIF\x00` or `Exif\x00` at offset 6 is JPEG; buffers under 11
bytes, and buffers matching no signature, are Unknown. -/
theorem C3_detect_type_cases (c : List Nat) :
    (c.length < 11 → detect_type c = .Unknown) ∧
    (11 ≤ c.length → c.take 4 = [0x49, 0x49, 42, 0] → detect_type c = .TIFF) ∧
    (11 ≤ c.length → c.take 4 = [0x4d, 0x4d, 0, 42] → detect_type c = .TIFF) ∧
    (11 ≤ c.length → c.take 3 = [0xff, 0xd8, 0xff] →
      ((c.drop 6).take 5 = [0x4a, 0x46, 0x49, 0x46, 0] ∨
       (c.drop 6).take 5 = [0x45, 0x78, 0x69, 0x66, 0]) → detect_type c = .JPEG) ∧
    (11 ≤ c.length →
      ¬(c.take 3 = [0xff, 0xd8, 0xff] ∧ (c.drop 6).take 5 = [0x4a, 0x46, 0x49, 0x46, 0]) →
      ¬(c.take 3 = [0xff, 0xd8, 0xff] ∧ (c.drop 6).take 5 = [0x45, 0x78, 0x69, 0x66, 0]) →
      c.take 4 ≠ [0x49, 0x49, 42, 0] → c.take 4 ≠ [0x4d, 0x4d, 0, 42] →
      detect_type c = .Unknown) := by
  have htt : ∀ (l : List Nat) (a b : Nat), a ≤ b → (l.take b).take a = l.take a := by
    intro l a b hab
    rw [List.take_take, Nat.min_eq_left hab]
  refine ⟨?_, ?_, ?_, ?_, ?_⟩
  · intro h
    simp [detect_type, h]
  · intro hlen h4
    have h3 : c.take 3 = [0x49, 0x49, 42] := by
      have := htt c 3 4 (by omega)
      rw [h4] at this; exact this.symm
    rw [detect_type, if_neg (by omega), if_neg (by simp [h3]), if_neg (by simp [h3]),
      if_pos h4]
  · intro hlen h4
    have h3 : c.take 3 = [0x4d, 0x4d, 0] := by
      have := htt c 3 4 (by omega)
      rw [h4] at this; exact this.symm
    have h4ne : c.take 4 ≠ [0x49, 0x49, 42, 0] := by
      intro hcon
      have := htt c 3 4 (by omega)
      rw [hcon] at this
      rw [h3] at this
      simp at this
    rw [detect_type, if_neg (by omega), if_neg (by simp [h3]), if_neg (by simp [h3]),
      if_neg h4ne, if_pos h4]
  · intro hlen h3 h6
    rcases h6 with h6 | h6
    · rw [detect_type, if_neg (by omega), if_pos ⟨h3, h6⟩]
    · by_cases hj : (c.drop 6).take 5 = [0x4a, 0x46, 0x49, 0x46, 0]
      · rw [detect_type, if_neg (by omega), if_pos ⟨h3, hj⟩]
      · rw [detect_type, if_neg (by omega), if_neg (by tauto), if_pos ⟨h3, h6⟩]
  · intro hlen hj1 hj2 ht1 ht2
    rw [detect_type, if_neg (by omega), if_neg hj1, if_neg hj2, if_neg ht1, if_neg ht2]

/-- Witness for C3 on concrete headers: an 11-byte little-endian TIFF
buffer, an 11-byte JFIF JPEG buffer, and a 10-byte buffer. -/
theorem C3_witness :
    detect_type [0x49, 0x49, 42, 0, 0, 0, 0, 0, 0, 0, 0] = .TIFF ∧
    detect_type [0xff, 0xd8, 0xff, 0, 0, 0, 0x4a, 0x46, 0x49, 0x46, 0] = .JPEG ∧
    detect_type [0x49, 0x49, 42, 0, 0, 0, 0, 0, 0, 0] = .Unknown :=
  ⟨(C3_detect_type_cases _).2.1 (by decide) (by decide),
   (C3_detect_type_cases _).2.2.2.1 (by decide) (by decide) (Or.inl (by decide)),
   (C3_detect_type_cases _).1 (by decide)⟩

/-- An inline Orientation (`0x0112`) IFD entry whose payload bytes are
`[1,0,0,0]`. -/
def c2_ifd_a : IfdEntry where
  nspace := .Standard
  tag := 0x0112
  format := .U16
  count := 1
  data := [1, 0, 0, 0]
  ifd_data := [1, 0, 0, 0]
  ext_data := []
  le := true

/-- The same entry as `c2_ifd_a` with payload bytes `[2,0,0,0]`. -/
def c2_ifd_b : IfdEntry := { c2_ifd_a with data := [2, 0, 0, 0], ifd_data := [2, 0, 0, 0] }

/-- A decoded Orientation entry wrapping `c2_ifd_a`. -/
def c2_a : ExifEntry where
  nspace := .Standard
  tag := ExifTag.Orientation
  ifd := c2_ifd_a
  value := .U16 [1]
  unit := "none"
  value_more_readable := "Straight"
  kind := .Ifd0

/-- A decoded Orientation entry wrapping `c2_ifd_b`. -/
def c2_b : ExifEntry := { c2_a with ifd := c2_ifd_b }

/-- C2 (counterexample): two entries with equal namespace, tag, format,
count and endianness whose raw payload bytes (`data`/`ifd_data`) differ,
with a tag that is neither `ExifOffset` nor `GPSOffset`, nevertheless
compare EQUAL: the guard `!self.tag == CONST` in the source compares the
bitwise complement of the tag (operator precedence), so the raw-byte
comparison branch is unreachable. -/
theorem C2_counterexample :
    ExifEntry.eq_partial c2_a c2_b = true ∧
    c2_a.ifd.data ≠ c2_b.ifd.data ∧ c2_a.ifd.ifd_data ≠ c2_b.ifd.ifd_data ∧
    c2_a.tag ≠ ExifTag.ExifOffset ∧ c2_a.tag ≠ ExifTag.GPSOffset ∧
    c2_a.nspace = c2_b.nspace ∧ c2_a.tag = c2_b.tag ∧
    c2_a.ifd.format = c2_b.ifd.format ∧ c2_a.ifd.count = c2_b.ifd.count ∧
    c2_a.ifd.le = c2_b.ifd.le ∧ c2_a.ifd.in_ifd = true := by
  decide

/-- C2 (amended): `MetadataEntry` equality never consults the raw byte
fields `data`/`ifd_data`/`ext_data` for ANY tag (the non-pointer-tag
byte-comparison branch is dead code, because `!self.tag == CONST` negates
the tag bitwise before comparing); for the directory-pointer tags
`ExifOffset`/`GPSOffset` the resolved value and display string are also
ignored, and for every other tag equality compares the resolved value and
the display string, together with namespace, tag, count, endianness, unit
and directory kind. -/
theorem C2_equality_amended (a b : ExifEntry) :
    (IfdEntry.eq_partial a.ifd b.ifd = true ↔
      (a.ifd.nspace = b.ifd.nspace ∧ a.ifd.tag = b.ifd.tag ∧
       a.ifd.count = b.ifd.count ∧ a.ifd.le = b.ifd.le)) ∧
    (ExifEntry.eq_partial a b = true ↔
      (a.nspace = b.nspace ∧ a.ifd.nspace = b.ifd.nspace ∧ a.ifd.tag = b.ifd.tag ∧
       a.ifd.count = b.ifd.count ∧ a.ifd.le = b.ifd.le ∧ a.tag = b.tag ∧
       a.unit = b.unit ∧ a.kind = b.kind ∧
       (a.tag = ExifTag.ExifOffset ∨ a.tag = ExifTag.GPSOffset ∨
        (a.value_more_readable = b.value_more_readable ∧ a.value = b.value)))) := by
  have hifd : ∀ x y : IfdEntry, IfdEntry.eq_partial x y = true ↔
      (x.nspace = y.nspace ∧ x.tag = y.tag ∧ x.count = y.count ∧ x.le = y.le) := by
    intro x y
    have hdead : ¬((x.in_ifd = true) ∧ 65535 - x.tag = 0x8769 ∧ 65535 - x.tag = 0x8825) := by
      rintro ⟨-, h1, h2⟩
      omega
    simp only [IfdEntry.eq_partial, if_neg hdead, decide_eq_true_eq]
    tauto
  refine ⟨hifd a.ifd b.ifd, ?_⟩
  by_cases hp : a.tag = ExifTag.ExifOffset ∨ a.tag = ExifTag.GPSOffset
  · simp only [ExifEntry.eq_partial, if_pos hp, decide_eq_true_eq, hifd]
    tauto
  · simp only [ExifEntry.eq_partial, if_neg hp, decide_eq_true_eq, hifd, tag_value_eq]
    tauto

theorem read_u16_none_iff (le : Bool) (raw : List Nat) :
    read_u16 le raw = none ↔ raw.length < 2 := by
  rcases raw with _ | ⟨a, _ | ⟨b, t⟩⟩ <;> simp [read_u16]

theorem read_i16_none_iff (le : Bool) (raw : List Nat) :
    read_i16 le raw = none ↔ raw.length < 2 := by
  rw [← read_u16_none_iff le raw, read_i16]
  rcases h : read_u16 le raw <;> simp

theorem read_u32_none_iff (le : Bool) (raw : List Nat) :
    read_u32 le raw = none ↔ raw.length < 4 := by
  rcases raw with _ | ⟨a, _ | ⟨b, _ | ⟨c, _ | ⟨d, t⟩⟩⟩⟩ <;> simp [read_u32]

theorem read_i32_none_iff (le : Bool) (raw : List Nat) :
    read_i32 le raw = none ↔ raw.length < 4 := by
  rw [← read_u32_none_iff le raw, read_i32]
  rcases h : read_u32 le raw <;> simp

theorem read_f32_none_iff (raw : List Nat) :
    read_f32 raw = none ↔ raw.length < 4 := by
  rcases raw with _ | ⟨a, _ | ⟨b, _ | ⟨c, _ | ⟨d, t⟩⟩⟩⟩ <;> simp [read_f32]

theorem read_f64_none_iff (raw : List Nat) :
    read_f64 raw = none ↔ raw.length < 8 := by
  rcases raw with _ | ⟨a, _ | ⟨b, _ | ⟨c, _ | ⟨d, _ | ⟨e, _ | ⟨f, _ | ⟨g, _ | ⟨i, t⟩⟩⟩⟩⟩⟩⟩⟩ <;>
    simp [read_f64]

theorem read_u32_isSome (le : Bool) (raw : List Nat) (h : 4 ≤ raw.length) :
    ∃ v, read_u32 le raw = some v := by
  rw [← Option.ne_none_iff_exists']
  simp [read_u32_none_iff]
  omega

theorem read_i32_isSome (le : Bool) (raw : List Nat) (h : 4 ≤ raw.length) :
    ∃ v, read_i32 le raw = some v := by
  rw [← Option.ne_none_iff_exists']
  simp [read_i32_none_iff]
  omega

theorem read_urational_panic_iff (le : Bool) (raw : List Nat) :
    read_urational le raw = Ret.panic ↔ raw.length < 8 := by
  rw [read_urational]
  by_cases h8 : 8 ≤ raw.length
  · have h0 : idx_slice raw 0 4 = some (raw.take 4) := by
      simp only [idx_slice, if_pos (by omega : 0 ≤ 4 ∧ 4 ≤ raw.length)]
      simp
    have h1 : idx_slice raw 4 8 = some ((raw.drop 4).take 4) := by
      simp only [idx_slice, if_pos (by omega : 4 ≤ 8 ∧ 8 ≤ raw.length)]
    obtain ⟨n, hn⟩ := read_u32_isSome le (raw.take 4)
      (by simp only [List.length_take]; omega)
    obtain ⟨d, hd⟩ := read_u32_isSome le ((raw.drop 4).take 4)
      (by simp only [List.length_take, List.length_drop]; omega)
    simp only [h0, h1, hn, hd]
    simp
    omega
  · by_cases h4 : 4 ≤ raw.length
    · have h0 : idx_slice raw 0 4 = some (raw.take 4) := by
        simp only [idx_slice, if_pos (by omega : 0 ≤ 4 ∧ 4 ≤ raw.length)]
        simp
      have h1 : idx_slice raw 4 8 = none := by
        simp only [idx_slice, ite_eq_right_iff]; omega
      obtain ⟨n, hn⟩ := read_u32_isSome le (raw.take 4)
        (by simp only [List.length_take]; omega)
      simp only [h0, h1, hn]
      simp
      omega
    · have h0 : idx_slice raw 0 4 = none := by
        simp only [idx_slice, ite_eq_right_iff]; omega
      simp only [h0]
      simp
      omega

theorem read_urational_not_val_none (le : Bool) (raw : List Nat) :
    read_urational le raw ≠ Ret.val none := by
  rw [read_urational]
  rcases h0 : idx_slice raw 0 4 with - | s0
  · simp
  · have hs0 : s0.length = 4 := by
      simp only [idx_slice] at h0
      split at h0
      next hc =>
        cases h0
        simp only [List.length_take, List.length_drop]
        omega
      next => cases h0
    obtain ⟨n, hn⟩ := read_u32_isSome le s0 (by omega)
    rcases h1 : idx_slice raw 4 8 with - | s1
    · simp [hn]
    · have hs1 : s1.length = 4 := by
        simp only [idx_slice] at h1
        split at h1
        next hc =>
          cases h1
          simp only [List.length_take, List.length_drop]
          omega
        next => cases h1
      obtain ⟨d, hd⟩ := read_u32_isSome le s1 (by omega)
      simp [hn, hd]

theorem read_irational_panic_iff (le : Bool) (raw : List Nat) :
    read_irational le raw = Ret.panic ↔ raw.length < 8 := by
  rw [read_irational]
  by_cases h8 : 8 ≤ raw.length
  · have h0 : idx_slice raw 0 4 = some (raw.take 4) := by
      simp only [idx_slice, if_pos (by omega : 0 ≤ 4 ∧ 4 ≤ raw.length)]
      simp
    have h1 : idx_slice raw 4 8 = some ((raw.drop 4).take 4) := by
      simp only [idx_slice, if_pos (by omega : 4 ≤ 8 ∧ 8 ≤ raw.length)]
    obtain ⟨n, hn⟩ := read_i32_isSome le (raw.take 4)
      (by simp only [List.length_take]; omega)
    obtain ⟨d, hd⟩ := read_i32_isSome le ((raw.drop 4).take 4)
      (by simp only [List.length_take, List.length_drop]; omega)
    simp only [h0, h1, hn, hd]
    simp
    omega
  · by_cases h4 : 4 ≤ raw.length
    · have h0 : idx_slice raw 0 4 = some (raw.take 4) := by
        simp only [idx_slice, if_pos (by omega : 0 ≤ 4 ∧ 4 ≤ raw.length)]
        simp
      have h1 : idx_slice raw 4 8 = none := by
        simp only [idx_slice, ite_eq_right_iff]; omega
      obtain ⟨n, hn⟩ := read_i32_isSome le (raw.take 4)
        (by simp only [List.length_take]; omega)
      simp only [h0, h1, hn]
      simp
      omega
    · have h0 : idx_slice raw 0 4 = none := by
        simp only [idx_slice, ite_eq_right_iff]; omega
      simp only [h0]
      simp
      omega

theorem read_irational_not_val_none (le : Bool) (raw : List Nat) :
    read_irational le raw ≠ Ret.val none := by
  rw [read_irational]
  rcases h0 : idx_slice raw 0 4 with - | s0
  · simp
  · have hs0 : s0.length = 4 := by
      simp only [idx_slice] at h0
      split at h0
      next hc =>
        cases h0
        simp only [List.length_take, List.length_drop]
        omega
      next => cases h0
    obtain ⟨n, hn⟩ := read_i32_isSome le s0 (by omega)
    rcases h1 : idx_slice raw 4 8 with - | s1
    · simp [hn]
    · have hs1 : s1.length = 4 := by
        simp only [idx_slice] at h1
        split at h1
        next hc =>
          cases h1
          simp only [List.length_take, List.length_drop]
          omega
        next => cases h1
      obtain ⟨d, hd⟩ := read_i32_isSome le s1 (by omega)
      simp [hn, hd]

theorem chunks_exact_props (size : Nat) (hs : 0 < size) :
    ∀ (n : Nat) (l : List Nat), l.length ≤ n →
      (chunks_exact size l).length = l.length / size ∧
        ∀ c ∈ chunks_exact size l, c.length = size := by
  intro n
  induction n with
  | zero =>
    intro l hl
    rw [chunks_exact, dif_neg (by omega)]
    refine ⟨?_, by simp⟩
    simp only [List.length_nil]
    symm
    apply Nat.div_eq_of_lt
    omega
  | succ n ih =>
    intro l hl
    by_cases h : size ≤ l.length
    · rw [chunks_exact, dif_pos ⟨hs, h⟩]
      obtain ⟨ih1, ih2⟩ := ih (l.drop size) (by simp only [List.length_drop]; omega)
      constructor
      · simp only [List.length_cons, ih1, List.length_drop]
        rw [Nat.div_eq_sub_div hs h]
      · intro c hc
        rcases List.mem_cons.mp hc with rfl | hc
        · simp only [List.length_take]
          omega
        · exact ih2 c hc
    · rw [chunks_exact, dif_neg (by tauto)]
      refine ⟨?_, by simp⟩
      simp only [List.length_nil]
      symm
      apply Nat.div_eq_of_lt
      omega

theorem map_unwrap_total {T : Type} (f : List Nat → Option T) (l : List (List Nat))
    (h : ∀ a ∈ l, ∃ b, f a = some b) :
    ∃ out, map_unwrap f l = some out ∧ out.length = l.length := by
  induction l with
  | nil => exact ⟨[], rfl, rfl⟩
  | cons a t ih =>
    obtain ⟨b, hb⟩ := h a (by simp)
    obtain ⟨out, hout, hlen⟩ := ih (fun x hx => h x (by simp [hx]))
    refine ⟨b :: out, ?_, by simp [hlen]⟩
    simp [map_unwrap, hb, hout]

/-- All-or-nothing behaviour of `read_elements` when the element converter
is total on exact-size chunks: short buffers give `none`, sufficient ones
give exactly `count` elements, and no input panics. -/
theorem read_elements_spec {T : Type} (size count : Nat) (raw : List Nat)
    (convert : List Nat → Option T) (hs : 0 < size) (hmul : size * count < 2 ^ 64)
    (hconv : ∀ ch : List Nat, ch.length = size → ∃ v, convert ch = some v) :
    (raw.length < size * count → read_elements size count raw convert = .val none) ∧
    (size * count ≤ raw.length →
      ∃ l, read_elements size count raw convert = .val (some l) ∧ l.length = count) := by
  have hc : checked_mul size count = some (size * count) := by
    rw [checked_mul, if_pos hmul]
  constructor
  · intro h
    have hst : slice_to raw (size * count) = none := by
      simp only [slice_to, ite_eq_right_iff]
      omega
    simp only [read_elements, hc, hst]
  · intro h
    have hst : slice_to raw (size * count) = some (raw.take (size * count)) := by
      simp [slice_to, h]
    have hbl : (raw.take (size * count)).length = size * count := by
      simp only [List.length_take]
      omega
    obtain ⟨hclen, hcmem⟩ := chunks_exact_props size hs (raw.take (size * count)).length
      (raw.take (size * count)) le_rfl
    have hccount : (chunks_exact size (raw.take (size * count))).length = count := by
      rw [hclen, hbl, Nat.mul_div_cancel_left count hs]
    obtain ⟨out, hout, holen⟩ := map_unwrap_total convert
      ((chunks_exact size (raw.take (size * count))).take count)
      (fun c hcm => hconv c (hcmem c (List.mem_of_mem_take hcm)))
    refine ⟨out, ?_, ?_⟩
    · simp only [read_elements, hc, hst, hout]
    · rw [holen, List.length_take, hccount, Nat.min_self]

theorem read_u16_total (le : Bool) (ch : List Nat) (h : ch.length = 2) :
    ∃ v, read_u16 le ch = some v := by
  rw [← Option.ne_none_iff_exists']
  simp [read_u16_none_iff, h]

theorem read_i16_total (le : Bool) (ch : List Nat) (h : ch.length = 2) :
    ∃ v, read_i16 le ch = some v := by
  rw [← Option.ne_none_iff_exists']
  simp [read_i16_none_iff, h]

theorem read_u32_total (le : Bool) (ch : List Nat) (h : ch.length = 4) :
    ∃ v, read_u32 le ch = some v := by
  rw [← Option.ne_none_iff_exists']
  simp [read_u32_none_iff, h]

theorem read_i32_total (le : Bool) (ch : List Nat) (h : ch.length = 4) :
    ∃ v, read_i32 le ch = some v := by
  rw [← Option.ne_none_iff_exists']
  simp [read_i32_none_iff, h]

theorem read_f32_total (ch : List Nat) (h : ch.length = 4) :
    ∃ v, read_f32 ch = some v := by
  rw [← Option.ne_none_iff_exists']
  simp [read_f32_none_iff, h]

theorem read_f64_total (ch : List Nat) (h : ch.length = 8) :
    ∃ v, read_f64 ch = some v := by
  rw [← Option.ne_none_iff_exists']
  simp [read_f64_none_iff, h]

theorem read_urational_total (le : Bool) (ch : List Nat) (h : ch.length = 8) :
    ∃ v, (match read_urational le ch with
          | .val (some r) => some r
          | _ => none) = some v := by
  have hp : read_urational le ch ≠ Ret.panic := by
    simp [read_urational_panic_iff, h]
  have hv := read_urational_not_val_none le ch
  rcases hr : read_urational le ch with - | r
  · exact absurd hr hp
  · rcases r with - | r
    · exact absurd hr hv
    · exact ⟨r, rfl⟩

theorem read_irational_total (le : Bool) (ch : List Nat) (h : ch.length = 8) :
    ∃ v, (match read_irational le ch with
          | .val (some r) => some r
          | _ => none) = some v := by
  have hp : read_irational le ch ≠ Ret.panic := by
    simp [read_irational_panic_iff, h]
  have hv := read_irational_not_val_none le ch
  rcases hr : read_irational le ch with - | r
  · exact absurd hr hp
  · rcases r with - | r
    · exact absurd hr hv
    · exact ⟨r, rfl⟩

/-- The seven zero bytes on which the unsigned rational reader panics. -/
def c5_seven_zeros : List Nat := [0, 0, 0, 0, 0, 0, 0]

/-- C5 (counterexample): the rational-pair readers are NOT total — on a
slice shorter than the 8 bytes they need, the range indexing
`&raw[0..4]` / `&raw[4..8]` panics instead of returning `None`: here
`read_urational` on a 7-byte slice and `read_irational` on an empty
slice. -/
theorem C5_counterexample :
    read_urational true c5_seven_zeros = Ret.panic ∧
    read_irational true [] = Ret.panic ∧
    c5_seven_zeros.length < 8 := by
  refine ⟨rfl, rfl, by decide⟩

/-- C5 (amended): the fixed-width scalar readers (`u16`/`i16`/`u32`/
`i32`/`f32`/`f64`) return `None` exactly when the slice is shorter than
the value's width; the rational-pair readers instead PANIC exactly when
the slice is shorter than 8 bytes (and can never return `None`); and
every array reader, for any element count below `2^32`, returns `None`
(all-or-nothing, with the `size * count` multiplication overflow-checked)
whenever the total requested bytes exceed the slice, and otherwise
returns exactly `count` elements, never panicking. -/
theorem C5_reader_totality (le : Bool) (raw : List Nat) (count : Nat)
    (hcount : count < 2 ^ 32) :
    (read_u16 le raw = none ↔ raw.length < 2) ∧
    (read_i16 le raw = none ↔ raw.length < 2) ∧
    (read_u32 le raw = none ↔ raw.length < 4) ∧
    (read_i32 le raw = none ↔ raw.length < 4) ∧
    (read_f32 raw = none ↔ raw.length < 4) ∧
    (read_f64 raw = none ↔ raw.length < 8) ∧
    (read_urational le raw = Ret.panic ↔ raw.length < 8) ∧
    read_urational le raw ≠ Ret.val none ∧
    (read_irational le raw = Ret.panic ↔ raw.length < 8) ∧
    read_irational le raw ≠ Ret.val none ∧
    ((raw.length < count → read_i8_array count raw = none) ∧
      (count ≤ raw.length →
        ∃ l, read_i8_array count raw = some l ∧ l.length = count)) ∧
    ((raw.length < 2 * count → read_u16_array le count raw = .val none) ∧
      (2 * count ≤ raw.length →
        ∃ l, read_u16_array le count raw = .val (some l) ∧ l.length = count)) ∧
    ((raw.length < 2 * count → read_i16_array le count raw = .val none) ∧
      (2 * count ≤ raw.length →
        ∃ l, read_i16_array le count raw = .val (some l) ∧ l.length = count)) ∧
    ((raw.length < 4 * count → read_u32_array le count raw = .val none) ∧
      (4 * count ≤ raw.length →
        ∃ l, read_u32_array le count raw = .val (some l) ∧ l.length = count)) ∧
    ((raw.length < 4 * count → read_i32_array le count raw = .val none) ∧
      (4 * count ≤ raw.length →
        ∃ l, read_i32_array le count raw = .val (some l) ∧ l.length = count)) ∧
    ((raw.length < 4 * count → read_f32_array count raw = .val none) ∧
      (4 * count ≤ raw.length →
        ∃ l, read_f32_array count raw = .val (some l) ∧ l.length = count)) ∧
    ((raw.length < 8 * count → read_f64_array count raw = .val none) ∧
      (8 * count ≤ raw.length →
        ∃ l, read_f64_array count raw = .val (some l) ∧ l.length = count)) ∧
    ((raw.length < 8 * count → read_urational_array le count raw = .val none) ∧
      (8 * count ≤ raw.length →
        ∃ l, read_urational_array le count raw = .val (some l) ∧ l.length = count)) ∧
    ((raw.length < 8 * count → read_irational_array le count raw = .val none) ∧
      (8 * count ≤ raw.length →
        ∃ l, read_irational_array le count raw = .val (some l) ∧ l.length = count)) := by
  refine ⟨read_u16_none_iff le raw, read_i16_none_iff le raw, read_u32_none_iff le raw,
    read_i32_none_iff le raw, read_f32_none_iff raw, read_f64_none_iff raw,
    read_urational_panic_iff le raw, read_urational_not_val_none le raw,
    read_irational_panic_iff le raw, read_irational_not_val_none le raw,
    ⟨?_, ?_⟩, ?_, ?_, ?_, ?_, ?_, ?_, ?_, ?_⟩
  · intro h
    simp only [read_i8_array, slice_to, if_neg (by omega : ¬count ≤ raw.length)]
  · intro h
    refine ⟨(raw.take count).map to_i8, ?_, ?_⟩
    · simp only [read_i8_array, slice_to, if_pos h]
    · simp only [List.length_map, List.length_take]
      omega
  · exact read_elements_spec 2 count raw (read_u16 le) (by omega) (by omega)
      (read_u16_total le)
  · exact read_elements_spec 2 count raw (read_i16 le) (by omega) (by omega)
      (read_i16_total le)
  · exact read_elements_spec 4 count raw (read_u32 le) (by omega) (by omega)
      (read_u32_total le)
  · exact read_elements_spec 4 count raw (read_i32 le) (by omega) (by omega)
      (read_i32_total le)
  · exact read_elements_spec 4 count raw read_f32 (by omega) (by omega) read_f32_total
  · exact read_elements_spec 8 count raw read_f64 (by omega) (by omega) read_f64_total
  · exact read_elements_spec 8 count raw _ (by omega) (by omega) (read_urational_total le)
  · exact read_elements_spec 8 count raw _ (by omega) (by omega) (read_irational_total le)

/-- Witness for C5's amended theorem at a 3-byte buffer and count 2:
`read_u16` succeeds on it, `read_u32` does not, the unsigned-rational
reader panics, and the `u16` array reader fails all-or-nothing. -/
theorem C5_amended_witness :
    ¬(read_u16 true [1, 2, 3] = none) ∧
    read_u32 true [1, 2, 3] = none ∧
    read_urational true [1, 2, 3] = Ret.panic ∧
    read_u16_array true 2 [1, 2, 3] = Ret.val none := by
  have h := C5_reader_totality true [1, 2, 3] 2 (by decide)
  refine ⟨?_, ?_, ?_, ?_⟩
  · rw [h.1]
    decide
  · rw [h.2.2.1]
    decide
  · rw [h.2.2.2.2.2.2.1]
    decide
  · exact h.2.2.2.2.2.2.2.2.2.2.2.1.1 (by decide)


/-- The 2-byte big-endian JPEG marker code read at offset `o`. -/
def jpeg_marker (c : List Nat) (o : Nat) : Nat :=
  256 * c.getD o 0 + c.getD (o + 1) 0

/-- The 2-byte big-endian JPEG segment size read right after the marker. -/
def jpeg_seg_size (c : List Nat) (o : Nat) : Nat :=
  256 * c.getD (o + 2) 0 + c.getD (o + 2 + 1) 0

/-- C4: `find_embedded_tiff_in_jpeg` scans segments from offset 2; at each
position it fails when the remaining buffer cannot hold a 4-byte marker
header, when the marker code is below `0xFF00`, when the declared size is
below 2, when the buffer cannot hold the declared segment body, or when
the end-of-scan marker `0xFFDA` is reached; at an APP1 (`0xFFE1`) segment
of declared size at least 8 whose body starts with `Exif\x00\x00` it
returns the offset just past that 6-byte tag together with the declared
size minus 8; any other valid marker is skipped. -/
theorem C4_find_embedded_tiff (c : List Nat) (o : Nat) :
    (find_embedded_tiff_in_jpeg c = find_tiff_loop c 2) ∧
    (c.length ≤ o →
      find_tiff_loop c o = .error (.JpegWithoutExif "Scan past EOF and no EXIF found")) ∧
    (o < c.length → c.length < o + 4 →
      find_tiff_loop c o = .error (.JpegWithoutExif "JPEG truncated in marker header")) ∧
    (o + 4 ≤ c.length → jpeg_marker c o < 0xff00 →
      find_tiff_loop c o = .error (.JpegWithoutExif "Invalid marker")) ∧
    (o + 4 ≤ c.length → 0xff00 ≤ jpeg_marker c o → jpeg_seg_size c o < 2 →
      find_tiff_loop c o =
        .error (.JpegWithoutExif
          "JPEG marker size must be at least 2 (because of the size word)")) ∧
    (o + 4 ≤ c.length → 0xff00 ≤ jpeg_marker c o → 2 ≤ jpeg_seg_size c o →
      c.length < o + 2 + jpeg_seg_size c o →
      find_tiff_loop c o = .error (.JpegWithoutExif "JPEG truncated in marker body")) ∧
    (o + 4 ≤ c.length → jpeg_marker c o = 0xffe1 → 2 ≤ jpeg_seg_size c o →
      o + 2 + jpeg_seg_size c o ≤ c.length → jpeg_seg_size c o < 8 →
      find_tiff_loop c o = .error (.JpegWithoutExif "EXIF preamble truncated")) ∧
    (o + 4 ≤ c.length → jpeg_marker c o = 0xffe1 → 8 ≤ jpeg_seg_size c o →
      o + 2 + jpeg_seg_size c o ≤ c.length → (c.drop (o + 4)).take 6 = exif_header →
      find_tiff_loop c o = .ok (o + 10, jpeg_seg_size c o - 8)) ∧
    (o + 4 ≤ c.length → jpeg_marker c o = 0xffda → 2 ≤ jpeg_seg_size c o →
      o + 2 + jpeg_seg_size c o ≤ c.length →
      find_tiff_loop c o = .error (.JpegWithoutExif "Last mark found and no EXIF")) ∧
    (o + 4 ≤ c.length → 0xff00 ≤ jpeg_marker c o → jpeg_marker c o ≠ 0xffe1 →
      jpeg_marker c o ≠ 0xffda → 2 ≤ jpeg_seg_size c o →
      o + 2 + jpeg_seg_size c o ≤ c.length →
      find_tiff_loop c o = find_tiff_loop c (o + 2 + jpeg_seg_size c o)) := by
  refine ⟨rfl, ?_, ?_, ?_, ?_, ?_, ?_, ?_, ?_, ?_⟩
  · intro h
    rw [find_tiff_loop, dif_neg (by omega)]
  · intro h1 h2
    rw [find_tiff_loop, dif_pos h1, if_pos h2]
  · intro h1 hm
    simp only [jpeg_marker] at hm
    rw [find_tiff_loop, dif_pos (by omega : o < c.length),
      if_neg (by omega : ¬c.length < o + 4)]
    simp only []
    rw [if_pos hm]
  · intro h1 hm hs
    simp only [jpeg_marker] at hm
    simp only [jpeg_seg_size] at hs
    rw [find_tiff_loop, dif_pos (by omega : o < c.length),
      if_neg (by omega : ¬c.length < o + 4)]
    simp only []
    rw [if_neg (by omega), if_pos hs]
  · intro h1 hm hs hlen
    simp only [jpeg_marker] at hm
    simp only [jpeg_seg_size] at hs hlen
    rw [find_tiff_loop, dif_pos (by omega : o < c.length),
      if_neg (by omega : ¬c.length < o + 4)]
    simp only []
    rw [if_neg (by omega), if_neg (by omega), if_pos (by omega)]
  · intro h1 hm hs2 hlen hs
    simp only [jpeg_marker] at hm
    simp only [jpeg_seg_size] at hs2 hs hlen
    rw [find_tiff_loop, dif_pos (by omega : o < c.length),
      if_neg (by omega : ¬c.length < o + 4)]
    simp only []
    rw [if_neg (by omega), if_neg (by omega), if_neg (by omega),
      if_pos (by omega : 256 * c.getD o 0 + c.getD (o + 1) 0 = 0xffe1), if_pos hs]
  · intro h1 hm hs hlen hpre
    simp only [jpeg_marker] at hm
    simp only [jpeg_seg_size] at hs hlen ⊢
    rw [find_tiff_loop, dif_pos (by omega : o < c.length),
      if_neg (by omega : ¬c.length < o + 4)]
    simp only []
    rw [if_neg (by omega), if_neg (by omega), if_neg (by omega),
      if_pos (by omega : 256 * c.getD o 0 + c.getD (o + 1) 0 = 0xffe1),
      if_neg (by omega)]
    rw [if_neg (by simp only [show o + 2 + 2 = o + 4 by omega, hpre]; simp)]
  · intro h1 hm hs hlen
    simp only [jpeg_marker] at hm
    simp only [jpeg_seg_size] at hs hlen
    rw [find_tiff_loop, dif_pos (by omega : o < c.length),
      if_neg (by omega : ¬c.length < o + 4)]
    simp only []
    rw [if_neg (by omega), if_neg (by omega), if_neg (by omega),
      if_neg (by omega : ¬256 * c.getD o 0 + c.getD (o + 1) 0 = 0xffe1),
      if_pos (by omega : 256 * c.getD o 0 + c.getD (o + 1) 0 = 0xffda)]
  · intro h1 hm hne1 hnda hs hlen
    simp only [jpeg_marker] at hm hne1 hnda
    simp only [jpeg_seg_size] at hs hlen ⊢
    rw [find_tiff_loop, dif_pos (by omega : o < c.length),
      if_neg (by omega : ¬c.length < o + 4)]
    simp only []
    rw [if_neg (by omega), if_neg (by omega), if_neg (by omega), if_neg hne1, if_neg hnda]

/-- The 14-byte JPEG whose first segment is an APP1 EXIF segment holding
two payload bytes, and a 6-byte JPEG that starts with the end-of-scan
marker. -/
def c4_jpeg : List Nat :=
  [0xff, 0xd8, 0xff, 0xe1, 0, 10, 0x45, 0x78, 0x69, 0x66, 0, 0, 1, 2]

/-- Witness for C4: on `c4_jpeg` the scan returns offset 12 (just past the
tag) and length 2 (the declared size 10 minus 8); a JPEG whose first
marker is `0xFFDA` fails. -/
theorem C4_witness :
    find_embedded_tiff_in_jpeg c4_jpeg = .ok (12, 2) ∧
    find_tiff_loop [0xff, 0xd8, 0xff, 0xda, 0, 2] 2 =
      .error (.JpegWithoutExif "Last mark found and no EXIF") := by
  constructor
  · rw [(C4_find_embedded_tiff c4_jpeg 2).1]
    exact (C4_find_embedded_tiff c4_jpeg 2).2.2.2.2.2.2.2.1 (by decide) (by decide)
      (by decide) (by decide) (by decide)
  · exact (C4_find_embedded_tiff [0xff, 0xd8, 0xff, 0xda, 0, 2] 2).2.2.2.2.2.2.2.2.1
      (by decide) (by decide) (by decide) (by decide)

theorem u16_bytes_length (le : Bool) (v : Nat) : (u16_bytes le v).length = 2 := by
  cases le <;> rfl

theorem u32_bytes_length (le : Bool) (v : Nat) : (u32_bytes le v).length = 4 := by
  cases le <;> rfl

/-- The `len` bytes of `s` starting at `pos`. -/
def seg (s : List Nat) (pos len : Nat) : List Nat :=
  (s.drop pos).take len

theorem seg_length (s : List Nat) (pos len : Nat) (h : pos + len ≤ s.length) :
    (seg s pos len).length = len := by
  simp only [seg, List.length_take, List.length_drop]
  omega

theorem seg_append_left (s t : List Nat) (pos len : Nat) (h : pos + len ≤ s.length) :
    seg (s ++ t) pos len = seg s pos len := by
  simp only [seg, List.drop_append_eq_append_drop, List.take_append_eq_append_take]
  have h1 : (s.drop pos).length = s.length - pos := List.length_drop ..
  have h2 : pos - s.length = 0 := by omega
  rw [h2]
  simp only [List.drop_zero]
  have h3 : len - (s.drop pos).length = 0 := by omega
  rw [h3]
  simp

theorem seg_append_self (s t : List Nat) : seg (s ++ t) s.length t.length = t := by
  simp [seg]

theorem write_at_length (s : List Nat) (pos : Nat) (bytes : List Nat) :
    (write_at s pos bytes).length = s.length := by
  simp only [write_at, List.length_append, List.length_take, List.length_drop]
  omega

theorem write_at_eq (s : List Nat) (w : Nat) (bytes : List Nat)
    (hw : w + bytes.length ≤ s.length) :
    write_at s w bytes = s.take w ++ bytes ++ s.drop (w + bytes.length) := by
  simp only [write_at]
  rw [List.take_of_length_le (show bytes.length ≤ s.length - w by omega)]

theorem drop_append_of_le (l1 l2 : List Nat) (n : Nat) (h : l1.length ≤ n) :
    (l1 ++ l2).drop n = l2.drop (n - l1.length) := by
  rw [List.drop_append_eq_append_drop, List.drop_eq_nil_of_le h]
  simp

theorem drop_append_le (l1 l2 : List Nat) (n : Nat) (h : n ≤ l1.length) :
    (l1 ++ l2).drop n = l1.drop n ++ l2 := by
  rw [List.drop_append_eq_append_drop, show n - l1.length = 0 by omega, List.drop_zero]

theorem take_append_le (l1 l2 : List Nat) (n : Nat) (h : n ≤ l1.length) :
    (l1 ++ l2).take n = l1.take n := by
  rw [List.take_append_eq_append_take, show n - l1.length = 0 by omega, List.take_zero,
    List.append_nil]

theorem seg_write_at_left (s : List Nat) (w : Nat) (bytes : List Nat) (pos len : Nat)
    (hw : w + bytes.length ≤ s.length) (h : pos + len ≤ w) :
    seg (write_at s w bytes) pos len = seg s pos len := by
  rw [write_at_eq s w bytes hw, seg, List.append_assoc]
  rw [drop_append_le _ _ pos (by simp only [List.length_take]; omega)]
  rw [take_append_le _ _ len (by simp only [List.length_drop, List.length_take]; omega)]
  rw [List.drop_take, List.take_take]
  rw [show min len (w - pos) = len by omega, seg]

theorem seg_write_at_right (s : List Nat) (w : Nat) (bytes : List Nat) (pos len : Nat)
    (hw : w + bytes.length ≤ s.length) (h : w + bytes.length ≤ pos) :
    seg (write_at s w bytes) pos len = seg s pos len := by
  rw [write_at_eq s w bytes hw, seg]
  rw [drop_append_of_le _ _ pos
    (by simp only [List.length_append, List.length_take]; omega)]
  rw [List.drop_drop]
  rw [show (s.take w ++ bytes).length = w + bytes.length by
    simp only [List.length_append, List.length_take]; omega]
  rw [show w + bytes.length + (pos - (w + bytes.length)) = pos by omega, seg]

theorem seg_write_at_self (s : List Nat) (w : Nat) (bytes : List Nat)
    (hw : w + bytes.length ≤ s.length) :
    seg (write_at s w bytes) w bytes.length = bytes := by
  rw [write_at_eq s w bytes hw, seg, List.append_assoc]
  rw [drop_append_of_le _ _ w (by simp only [List.length_take]; omega)]
  rw [show w - (s.take w).length = 0 by simp only [List.length_take]; omega, List.drop_zero]
  exact List.take_left ..

theorem read_u32_of_take (le : Bool) (l : List Nat) (b0 b1 b2 b3 : Nat)
    (h : l.take 4 = [b0, b1, b2, b3]) :
    read_u32 le l = read_u32 le [b0, b1, b2, b3] := by
  rcases l with _ | ⟨a0, _ | ⟨a1, _ | ⟨a2, _ | ⟨a3, t⟩⟩⟩⟩ <;> simp_all [read_u32]

theorem read_u32_u32_bytes (le : Bool) (v : Nat) :
    read_u32 le (u32_bytes le v) = some (v % 2 ^ 32) := by
  cases le <;> (simp only [u32_bytes, read_u32]; simp only [if_pos, ite_true,
    Bool.false_eq_true, ite_false]; congr 1; omega)

theorem read_u32_of_seg (le : Bool) (s : List Nat) (pos v : Nat)
    (hseg : seg s pos 4 = u32_bytes le v) (hv : v < 2 ^ 32) :
    read_u32 le (s.drop pos) = some v := by
  have h4 : (u32_bytes le v).length = 4 := u32_bytes_length le v
  rcases hb : u32_bytes le v with - | ⟨b0, - | ⟨b1, - | ⟨b2, - | ⟨b3, t⟩⟩⟩⟩ <;>
    simp [hb] at h4
  have ht : t = [] := by
    cases t
    · rfl
    · simp at h4
  subst ht
  rw [seg, hb] at hseg
  rw [read_u32_of_take le (s.drop pos) b0 b1 b2 b3 hseg, ← hb, read_u32_u32_bytes,
    Nat.mod_eq_of_lt hv]

/-- The 12-byte (in the usual case) on-disk record of one IFD entry, as
`IfdEntry.serialize` emits it. -/
def entry_record (e : IfdEntry) : List Nat :=
  u16_bytes e.le e.tag ++ u16_bytes e.le e.format.code ++ u32_bytes e.le e.count ++
    (if e.in_ifd then e.data else [0, 0, 0, 0])

/-- The concatenated records of a directory's entries. -/
def records (entries : List ExifEntry) : List Nat :=
  (entries.map (fun e => entry_record e.ifd)).flatten

/-- The patches enqueued while serializing `entries` into a buffer whose
length was `base` at the start. -/
def entry_patches (entries : List ExifEntry) (base : Nat) : List Patch :=
  match entries with
  | [] => []
  | e :: rest =>
    (if e.ifd.in_ifd then [] else [⟨(base + 8) % 2 ^ 32, e.ifd.data⟩]) ++
      entry_patches rest (base + (entry_record e.ifd).length)

/-- Total number of payload bytes a patch list will append. -/
def patch_total (ps : List Patch) : Nat :=
  (ps.map (fun p => p.data.length)).sum

/-- Total number of external (non-inline) payload bytes of a directory. -/
def ext_total (entries : List ExifEntry) : Nat :=
  match entries with
  | [] => 0
  | e :: rest => (if e.ifd.in_ifd then 0 else e.ifd.data.length) + ext_total rest

theorem entry_record_length (e : IfdEntry) :
    (entry_record e).length = 8 + (if e.in_ifd then e.data.length else 4) := by
  by_cases h : e.in_ifd <;>
    simp [entry_record, h, u16_bytes_length, u32_bytes_length] <;> omega

theorem entry_record_length_of_4 (e : IfdEntry) (h4 : e.in_ifd = true → e.data.length = 4) :
    (entry_record e).length = 12 := by
  rw [entry_record_length]
  by_cases h : e.in_ifd
  · rw [if_pos h, h4 h]
  · rw [if_neg h]

theorem records_cons (e : ExifEntry) (rest : List ExifEntry) :
    records (e :: rest) = entry_record e.ifd ++ records rest := by
  simp [records]

theorem records_nil : records [] = [] := rfl

theorem records_length_of_4 (entries : List ExifEntry)
    (h4 : ∀ e ∈ entries, e.ifd.in_ifd = true → e.ifd.data.length = 4) :
    (records entries).length = 12 * entries.length := by
  induction entries with
  | nil => rfl
  | cons e rest ih =>
    rw [records_cons, List.length_append,
      entry_record_length_of_4 e.ifd (h4 e (by simp)),
      ih (fun x hx => h4 x (by simp [hx])), List.length_cons]
    ring

theorem ifd_serialize_eq (e : IfdEntry) (s : List Nat) (ps : List Patch)
    (h : e.nspace = Namespace.Standard) :
    e.serialize s ps = .ok (s ++ entry_record e,
      ps ++ if e.in_ifd then [] else [⟨(s.length + 8) % 2 ^ 32, e.data⟩]) := by
  rw [IfdEntry.serialize, if_neg (by simp [h])]
  by_cases hi : e.in_ifd
  · simp only [hi, if_pos, ite_true, entry_record]
    simp
  · simp only [hi, entry_record, Bool.false_eq_true, if_neg, ite_false]
    have hl : (s ++ u16_bytes e.le e.tag ++ u16_bytes e.le e.format.code ++
        u32_bytes e.le e.count).length = s.length + 8 := by
      simp [u16_bytes_length, u32_bytes_length]
    rw [hl]
    simp

theorem ifd_serialize_err (e : IfdEntry) (s : List Nat) (ps : List Patch)
    (h : e.nspace ≠ Namespace.Standard) :
    e.serialize s ps = .error .UnsupportedNamespace := by
  rw [IfdEntry.serialize, if_pos (by simp [h])]

theorem serialize_entries_eq :
    ∀ (entries : List ExifEntry) (s : List Nat) (ps : List Patch),
    (∀ e ∈ entries, e.ifd.nspace = Namespace.Standard) →
    serialize_entries entries s ps =
      .ok (s ++ records entries, ps ++ entry_patches entries s.length) := by
  intro entries
  induction entries with
  | nil =>
    intro s ps h
    simp [serialize_entries, records, entry_patches]
  | cons e rest ih =>
    intro s ps h
    rw [serialize_entries, ifd_serialize_eq e.ifd s ps (h e (by simp))]
    simp only []
    rw [ih _ _ (fun x hx => h x (by simp [hx]))]
    rw [records_cons, entry_patches]
    simp only [List.length_append, List.append_assoc, List.nil_append,
      List.singleton_append, List.cons_append]

theorem serialize_entries_err :
    ∀ (entries : List ExifEntry) (s : List Nat) (ps : List Patch),
    (∃ e ∈ entries, e.ifd.nspace ≠ Namespace.Standard) →
    serialize_entries entries s ps = .error .UnsupportedNamespace := by
  intro entries
  induction entries with
  | nil =>
    intro s ps h
    simp at h
  | cons e rest ih =>
    intro s ps h
    by_cases he : e.ifd.nspace = Namespace.Standard
    · rw [serialize_entries, ifd_serialize_eq e.ifd s ps he]
      simp only []
      apply ih
      obtain ⟨x, hx, hxn⟩ := h
      rcases List.mem_cons.mp hx with rfl | hx
      · exact absurd he hxn
      · exact ⟨x, hx, hxn⟩
    · rw [serialize_entries, ifd_serialize_err e.ifd s ps he]

/-- The running value of the Exif/GPS pointer-position tracker over the
IFD-0 entry loop: after each record, an entry with the tracked tag
records the position of the record's last 4 bytes. -/
def track_ptr (tag : ExifTag) (entries : List ExifEntry) (base : Nat) (cur : Option Nat) :
    Option Nat :=
  match entries with
  | [] => cur
  | e :: rest =>
    track_ptr tag rest (base + (entry_record e.ifd).length)
      (if e.tag = tag then some (base + (entry_record e.ifd).length - 4) else cur)

theorem serialize_ifd0_eq :
    ∀ (entries : List ExifEntry) (s : List Nat) (ps : List Patch) (ep gp : Option Nat),
    (∀ e ∈ entries, e.ifd.nspace = Namespace.Standard) →
    serialize_ifd0 entries s ps ep gp =
      .ok (s ++ records entries, ps ++ entry_patches entries s.length,
        track_ptr ExifTag.ExifOffset entries s.length ep,
        track_ptr ExifTag.GPSOffset entries s.length gp) := by
  intro entries
  induction entries with
  | nil =>
    intro s ps ep gp h
    simp [serialize_ifd0, records, entry_patches, track_ptr]
  | cons e rest ih =>
    intro s ps ep gp h
    rw [serialize_ifd0, ifd_serialize_eq e.ifd s ps (h e (by simp))]
    simp only []
    rw [ih _ _ _ _ (fun x hx => h x (by simp [hx]))]
    rw [records_cons, entry_patches]
    rw [track_ptr, track_ptr]
    simp only [List.length_append, List.append_assoc, List.nil_append,
      List.singleton_append, List.cons_append]

theorem serialize_ifd0_err :
    ∀ (entries : List ExifEntry) (s : List Nat) (ps : List Patch) (ep gp : Option Nat),
    (∃ e ∈ entries, e.ifd.nspace ≠ Namespace.Standard) →
    serialize_ifd0 entries s ps ep gp = .error .UnsupportedNamespace := by
  intro entries
  induction entries with
  | nil =>
    intro s ps ep gp h
    simp at h
  | cons e rest ih =>
    intro s ps ep gp h
    by_cases he : e.ifd.nspace = Namespace.Standard
    · rw [serialize_ifd0, ifd_serialize_eq e.ifd s ps he]
      simp only []
      apply ih
      obtain ⟨x, hx, hxn⟩ := h
      rcases List.mem_cons.mp hx with rfl | hx
      · exact absurd he hxn
      · exact ⟨x, hx, hxn⟩
    · rw [serialize_ifd0, ifd_serialize_err e.ifd s ps he]

theorem track_ptr_isSome (tag : ExifTag) :
    ∀ (entries : List ExifEntry) (base : Nat) (cur : Option Nat),
    (track_ptr tag entries base cur).isSome = true ↔
      ((∃ e ∈ entries, e.tag = tag) ∨ cur.isSome = true) := by
  intro entries
  induction entries with
  | nil =>
    intro base cur
    simp [track_ptr]
  | cons e rest ih =>
    intro base cur
    rw [track_ptr, ih]
    by_cases he : e.tag = tag
    · simp [he]
    · simp only [he, ite_false, List.mem_cons]
      constructor
      · rintro (⟨x, hx, hxt⟩ | h)
        · exact Or.inl ⟨x, Or.inr hx, hxt⟩
        · exact Or.inr h
      · rintro (⟨x, rfl | hx, hxt⟩ | h)
        · exact absurd hxt he
        · exact Or.inl ⟨x, hx, hxt⟩
        · exact Or.inr h

/-- The buffer produced by `ExifData::serialize_ifd` for a sub-directory
serialized at the end of `s`, with reserved pointer position `p`. -/
def sub_stage (le : Bool) (s : List Nat) (entries : List ExifEntry) (p : Nat) : List Nat :=
  apply_patches le
    (write_at (s ++ u16_bytes le entries.length) p (u32_bytes le s.length) ++
      records entries ++ [0, 0, 0, 0])
    (entry_patches entries (s.length + 2))

theorem serialize_ifd_none (le : Bool) (s : List Nat) (entries : List ExifEntry) :
    ExifData.serialize_ifd le s entries none = .error .MissingExifOffset := rfl

theorem serialize_ifd_err_ns (le : Bool) (s : List Nat) (entries : List ExifEntry) (p : Nat)
    (h : ∃ e ∈ entries, e.ifd.nspace ≠ Namespace.Standard) :
    ExifData.serialize_ifd le s entries (some p) = .error .UnsupportedNamespace := by
  rw [ExifData.serialize_ifd]
  rw [serialize_entries_err entries _ [] h]

theorem serialize_ifd_eq (le : Bool) (s : List Nat) (entries : List ExifEntry) (p : Nat)
    (h : ∀ e ∈ entries, e.ifd.nspace = Namespace.Standard) :
    ExifData.serialize_ifd le s entries (some p) = .ok (sub_stage le s entries p) := by
  rw [ExifData.serialize_ifd]
  rw [serialize_entries_eq entries _ [] h]
  simp only []
  rw [sub_stage]
  have hlen : (write_at (s ++ u16_bytes le entries.length) p (u32_bytes le s.length)).length =
      s.length + 2 := by
    rw [write_at_length]
    simp [u16_bytes_length]
  rw [hlen]
  simp [List.append_assoc]

theorem apply_patches_length (le : Bool) :
    ∀ (ps : List Patch) (s : List Nat),
    (apply_patches le s ps).length = s.length + patch_total ps := by
  intro ps
  induction ps with
  | nil =>
    intro s
    simp [apply_patches, patch_total]
  | cons p rest ih =>
    intro s
    rw [apply_patches, ih, write_at_length]
    simp only [List.length_append, patch_total, List.map_cons, List.sum_cons]
    omega

theorem apply_patches_stable (le : Bool) :
    ∀ (ps : List Patch) (s : List Nat) (pos len : Nat),
    (∀ p ∈ ps, p.offset_pos + 4 ≤ s.length) →
    pos + len ≤ s.length →
    (∀ p ∈ ps, p.offset_pos + 4 ≤ pos ∨ pos + len ≤ p.offset_pos) →
    seg (apply_patches le s ps) pos len = seg s pos len := by
  intro ps
  induction ps with
  | nil =>
    intro s pos len hb hin hdis
    rfl
  | cons p rest ih =>
    intro s pos len hb hin hdis
    rw [apply_patches]
    have hw : p.offset_pos + (u32_bytes le s.length).length ≤ (s ++ p.data).length := by
      rw [u32_bytes_length]
      have := hb p (by simp)
      simp only [List.length_append]
      omega
    have hstep : seg (write_at (s ++ p.data) p.offset_pos (u32_bytes le s.length)) pos len =
        seg s pos len := by
      rcases hdis p (by simp) with hd | hd
      · rw [seg_write_at_right _ _ _ _ _ hw (by rw [u32_bytes_length]; omega)]
        exact seg_append_left s p.data pos len (by omega)
      · rw [seg_write_at_left _ _ _ _ _ hw hd]
        exact seg_append_left s p.data pos len (by omega)
    rw [ih _ pos len ?_ ?_ ?_, hstep]
    · intro q hq
      rw [write_at_length]
      have := hb q (by simp [hq])
      simp only [List.length_append]
      omega
    · rw [write_at_length]
      simp only [List.length_append]
      omega
    · intro q hq
      exact hdis q (by simp [hq])

theorem patch_total_append (a b : List Patch) :
    patch_total (a ++ b) = patch_total a + patch_total b := by
  simp [patch_total]

theorem patch_total_cons (p : Patch) (rest : List Patch) :
    patch_total (p :: rest) = p.data.length + patch_total rest := by
  simp [patch_total]

theorem records_length_ge (e : ExifEntry) (rest : List ExifEntry) :
    12 ≤ (records (e :: rest)).length ∨ (entry_record e.ifd).length < 12 := by
  rw [records_cons, List.length_append]
  omega

theorem entry_patches_bounds :
    ∀ (entries : List ExifEntry) (base : Nat),
    base + (records entries).length ≤ 2 ^ 32 →
    ∀ p ∈ entry_patches entries base,
      base + 8 ≤ p.offset_pos ∧ p.offset_pos + 4 ≤ base + (records entries).length := by
  intro entries
  induction entries with
  | nil =>
    intro base hnw p hp
    simp [entry_patches] at hp
  | cons e rest ih =>
    intro base hnw p hp
    rw [records_cons, List.length_append]
    rw [entry_patches] at hp
    have hrl := entry_record_length e.ifd
    rcases List.mem_append.mp hp with hp | hp
    · by_cases hi : e.ifd.in_ifd
      · simp [hi] at hp
      · simp only [hi, Bool.false_eq_true, ite_false, List.mem_singleton] at hp
        subst hp
        have h12 : (entry_record e.ifd).length = 12 := by
          rw [hrl]
          simp [hi]
        rw [records_cons, List.length_append, h12] at hnw
        have hmod : (base + 8) % 2 ^ 32 = base + 8 := by
          apply Nat.mod_eq_of_lt
          omega
        simp only [hmod]
        omega
    · have hnw' : base + (entry_record e.ifd).length + (records rest).length ≤ 2 ^ 32 := by
        rw [records_cons, List.length_append] at hnw
        omega
      have := ih (base + (entry_record e.ifd).length) hnw' p hp
      omega

theorem entry_patches_sorted :
    ∀ (entries : List ExifEntry) (base : Nat),
    base + (records entries).length ≤ 2 ^ 32 →
    (entry_patches entries base).Pairwise (fun p q => p.offset_pos + 4 ≤ q.offset_pos) := by
  intro entries
  induction entries with
  | nil =>
    intro base hnw
    simp [entry_patches]
  | cons e rest ih =>
    intro base hnw
    rw [entry_patches]
    have hrl := entry_record_length e.ifd
    have hnw' : base + (entry_record e.ifd).length + (records rest).length ≤ 2 ^ 32 := by
      rw [records_cons, List.length_append] at hnw
      omega
    rw [List.pairwise_append]
    refine ⟨?_, ih _ hnw', ?_⟩
    · by_cases hi : e.ifd.in_ifd <;> simp [hi]
    · intro p hp q hq
      by_cases hi : e.ifd.in_ifd
      · simp [hi] at hp
      · simp only [hi, Bool.false_eq_true, ite_false, List.mem_singleton] at hp
        subst hp
        have h12 : (entry_record e.ifd).length = 12 := by
          rw [hrl]
          simp [hi]
        have hb := (entry_patches_bounds rest (base + (entry_record e.ifd).length) hnw' q hq).1
        have hmod : (base + 8) % 2 ^ 32 = base + 8 := by
          apply Nat.mod_eq_of_lt
          rw [records_cons, List.length_append, h12] at hnw
          omega
        simp only [hmod]
        omega

theorem entry_patches_indexed :
    ∀ (entries : List ExifEntry) (base : Nat),
    (∀ e ∈ entries, e.ifd.in_ifd = true → e.ifd.data.length = 4) →
    base + 12 * entries.length ≤ 2 ^ 32 →
    ∀ (i : Nat) (ei : ExifEntry), entries.get? i = some ei → ei.ifd.in_ifd = false →
      ∃ j, (entry_patches entries base).get? j =
          some ⟨base + 12 * i + 8, ei.ifd.data⟩ ∧
        patch_total ((entry_patches entries base).take j) = ext_total (entries.take i) := by
  intro entries
  induction entries with
  | nil =>
    intro base h4 hnw i ei hei
    simp at hei
  | cons e rest ih =>
    intro base h4 hnw i ei hei hext
    have h12 : (entry_record e.ifd).length = 12 :=
      entry_record_length_of_4 e.ifd (h4 e (by simp))
    have hnw' : (base + 12) + 12 * rest.length ≤ 2 ^ 32 := by
      simp only [List.length_cons] at hnw
      omega
    have hmod : (base + 8) % 2 ^ 32 = base + 8 := by
      apply Nat.mod_eq_of_lt
      simp only [List.length_cons] at hnw
      omega
    cases i with
    | zero =>
      have he : e = ei := by simpa using hei
      subst he
      refine ⟨0, ?_, ?_⟩
      · rw [entry_patches]
        simp only [hext, Bool.false_eq_true, ite_false, List.singleton_append,
          List.get?_cons_zero, hmod, Option.some.injEq]
      · rw [entry_patches]
        simp [hext, patch_total, ext_total]
    | succ k =>
      have hk : rest.get? k = some ei := by simpa using hei
      obtain ⟨j, hget, htot⟩ :=
        ih (base + 12) (fun x hx => h4 x (by simp [hx])) hnw' k ei hk hext
      set pre : List Patch := if e.ifd.in_ifd then [] else
        [⟨(base + 8) % 2 ^ 32, e.ifd.data⟩] with hpre
      refine ⟨pre.length + j, ?_, ?_⟩
      · rw [entry_patches, h12, ← hpre]
        rw [List.get?_append_right (by omega)]
        rw [show pre.length + j - pre.length = j from by omega]
        rw [hget]
        congr 2
        omega
      · rw [entry_patches, h12, ← hpre, List.take_append, patch_total_append, htot]
        have hpt : patch_total pre = if e.ifd.in_ifd then 0 else e.ifd.data.length := by
          by_cases hi : e.ifd.in_ifd <;> simp [hpre, hi, patch_total]
        rw [hpt]
        have hts : (e :: rest).take (k + 1) = e :: rest.take k := rfl
        rw [hts, ext_total]

theorem apply_patches_facts (le : Bool) :
    ∀ (ps : List Patch) (s : List Nat),
    (∀ p ∈ ps, p.offset_pos + 4 ≤ s.length) →
    ps.Pairwise (fun p q => p.offset_pos + 4 ≤ q.offset_pos) →
    ∀ (i : Nat) (p : Patch), ps.get? i = some p →
      seg (apply_patches le s ps) p.offset_pos 4 =
        u32_bytes le (s.length + patch_total (ps.take i)) ∧
      seg (apply_patches le s ps) (s.length + patch_total (ps.take i))
        p.data.length = p.data := by
  intro ps
  induction ps with
  | nil =>
    intro s hb hp i p hip
    simp at hip
  | cons q rest ih =>
    intro s hb hp i p hip
    rw [apply_patches]
    have hs'len : (write_at (s ++ q.data) q.offset_pos (u32_bytes le s.length)).length =
        s.length + q.data.length := by
      rw [write_at_length]
      simp
    have hw : q.offset_pos + (u32_bytes le s.length).length ≤ (s ++ q.data).length := by
      rw [u32_bytes_length]
      have := hb q (by simp)
      simp only [List.length_append]
      omega
    have hbrest : ∀ r ∈ rest,
        r.offset_pos + 4 ≤ (write_at (s ++ q.data) q.offset_pos (u32_bytes le s.length)).length := by
      intro r hr
      have := hb r (by simp [hr])
      omega
    cases i with
    | zero =>
      have hqp : q = p := by simpa using hip
      subst hqp
      have hq4 := hb q (by simp)
      constructor
      · rw [apply_patches_stable le rest _ q.offset_pos 4 hbrest (by omega) ?_]
        · have h4b : (4 : Nat) = (u32_bytes le s.length).length := (u32_bytes_length le _).symm
          rw [h4b, seg_write_at_self _ _ _ hw]
          simp [patch_total]
        · intro r hr
          right
          exact (List.pairwise_cons.mp hp).1 r hr
      · have ht0 : patch_total ((q :: rest).take 0) = 0 := by simp [patch_total]
        rw [ht0, Nat.add_zero]
        rw [apply_patches_stable le rest _ s.length q.data.length hbrest (by omega) ?_]
        · rw [seg_write_at_right _ _ _ _ _ hw (by rw [u32_bytes_length]; omega)]
          exact seg_append_self s q.data
        · intro r hr
          left
          exact hb r (by simp [hr])
    | succ k =>
      have hik : rest.get? k = some p := by simpa using hip
      have harith : s.length + patch_total ((q :: rest).take (k + 1)) =
          (write_at (s ++ q.data) q.offset_pos (u32_bytes le s.length)).length +
            patch_total (rest.take k) := by
        rw [hs'len]
        simp only [List.take_succ_cons, patch_total, List.map_cons, List.sum_cons]
        omega
      rw [harith, hs'len]
      have := ih _ hbrest (List.pairwise_cons.mp hp).2 k p hik
      rw [hs'len] at this
      exact this


/-- The IFD-0 group of a set (entries with kind `Ifd0`). -/
def d_ifd0 (d : ExifData) : List ExifEntry := d.entries.filter (fun e => e.kind = IfdKind.Ifd0)
/-- The thumbnail (IFD-1) group of a set. -/
def d_ifd1 (d : ExifData) : List ExifEntry := d.entries.filter (fun e => e.kind = IfdKind.Ifd1)
/-- The Exif sub-directory group of a set. -/
def d_exif (d : ExifData) : List ExifEntry := d.entries.filter (fun e => e.kind = IfdKind.Exif)
/-- The GPS sub-directory group of a set. -/
def d_gps (d : ExifData) : List ExifEntry := d.entries.filter (fun e => e.kind = IfdKind.Gps)
/-- The byte-order header `serialize` emits for the given endianness. -/
def tiff_hdr (le : Bool) : List Nat := if le then intel_tiff_header else motorola_tiff_header
/-- The 10-byte prelude of a serialized set: byte-order header, IFD-0
offset, IFD-0 entry count. -/
def s0_of (d : ExifData) : List Nat :=
  tiff_hdr d.le ++ u32_bytes d.le ((tiff_hdr d.le).length + 4) ++ u16_bytes d.le (d_ifd0 d).length
/-- The buffer after IFD-0: prelude, records, zero next-IFD pointer, and
the resolved IFD-0 patches. -/
def s1_of (d : ExifData) : List Nat :=
  apply_patches d.le (s0_of d ++ records (d_ifd0 d) ++ [0, 0, 0, 0])
    (entry_patches (d_ifd0 d) (s0_of d).length)

theorem s0_length (d : ExifData) : (s0_of d).length = 10 := by
  rcases d with ⟨m, en, le⟩
  cases le <;> simp [s0_of, tiff_hdr, u16_bytes, u32_bytes, intel_tiff_header, motorola_tiff_header]

/-- Helper: unfolding of the success path of `ExifData::serialize`. -/
theorem serialize_step1 (d : ExifData)
    (h1 : d_ifd1 d = [])
    (hns0 : ∀ e ∈ d_ifd0 d, e.ifd.nspace = Namespace.Standard) :
    d.serialize =
      (match (if d_exif d ≠ [] then
          ExifData.serialize_ifd d.le (s1_of d) (d_exif d)
            (track_ptr ExifTag.ExifOffset (d_ifd0 d) (s0_of d).length none) else .ok (s1_of d)) with
       | .error err => .error err
       | .ok s2 =>
         match (if d_gps d ≠ [] then
             ExifData.serialize_ifd d.le s2 (d_gps d)
               (track_ptr ExifTag.GPSOffset (d_ifd0 d) (s0_of d).length none) else .ok s2) with
         | .error err => .error err
         | .ok s3 => .ok (if d.mime = "image/jpeg" then exif_header ++ s3 else s3)) := by
  rw [ExifData.serialize]
  rw [show d.entries.filter (fun e => e.kind = IfdKind.Ifd1) = d_ifd1 d from rfl, h1]
  simp only [ne_eq, not_true_eq_false, if_false, ite_false]
  rw [show d.entries.filter (fun e => e.kind = IfdKind.Ifd0) = d_ifd0 d from rfl]
  rw [show d.entries.filter (fun e => e.kind = IfdKind.Exif) = d_exif d from rfl]
  rw [show d.entries.filter (fun e => e.kind = IfdKind.Gps) = d_gps d from rfl]
  rw [show (if d.le then intel_tiff_header else motorola_tiff_header) = tiff_hdr d.le from rfl]
  rw [serialize_ifd0_eq (d_ifd0 d) _ [] none none hns0]
  simp only [List.nil_append]
  rw [show tiff_hdr d.le ++ u32_bytes d.le ((tiff_hdr d.le).length + 4) ++
      u16_bytes d.le (d_ifd0 d).length = s0_of d from rfl]
  rw [show apply_patches d.le (s0_of d ++ records (d_ifd0 d) ++ [0, 0, 0, 0])
      (entry_patches (d_ifd0 d) (s0_of d).length) = s1_of d from rfl]

/-- The buffer after the (optional) Exif sub-directory. -/
def stage2_of (d : ExifData) : List Nat :=
  match d_exif d, track_ptr ExifTag.ExifOffset (d_ifd0 d) (s0_of d).length none with
  | [], _ => s1_of d
  | _ :: _, none => s1_of d
  | _ :: _, some p => sub_stage d.le (s1_of d) (d_exif d) p

/-- The buffer after the (optional) GPS sub-directory: the final TIFF
body `serialize` produces on success. -/
def stage3_of (d : ExifData) : List Nat :=
  match d_gps d, track_ptr ExifTag.GPSOffset (d_ifd0 d) (s0_of d).length none with
  | [], _ => stage2_of d
  | _ :: _, none => stage2_of d
  | _ :: _, some p => sub_stage d.le (stage2_of d) (d_gps d) p

/-- Helper: unfolding of the success path of `ExifData::serialize`. -/
theorem serialize_success (d : ExifData)
    (h1 : d_ifd1 d = [])
    (hns0 : ∀ e ∈ d_ifd0 d, e.ifd.nspace = Namespace.Standard)
    (hnse : ∀ e ∈ d_exif d, e.ifd.nspace = Namespace.Standard)
    (hnsg : ∀ e ∈ d_gps d, e.ifd.nspace = Namespace.Standard)
    (hpe : d_exif d ≠ [] → ∃ e ∈ d_ifd0 d, e.tag = ExifTag.ExifOffset)
    (hpg : d_gps d ≠ [] → ∃ e ∈ d_ifd0 d, e.tag = ExifTag.GPSOffset) :
    d.serialize = .ok (if d.mime = "image/jpeg" then exif_header ++ stage3_of d
      else stage3_of d) := by
  rw [serialize_step1 d h1 hns0]
  have hstage2 : (if d_exif d ≠ [] then
      ExifData.serialize_ifd d.le (s1_of d) (d_exif d)
        (track_ptr ExifTag.ExifOffset (d_ifd0 d) (s0_of d).length none) else .ok (s1_of d)) =
      .ok (stage2_of d) := by
    rcases hde : d_exif d with - | ⟨e0, erest⟩
    · rw [if_neg (by simp)]
      rw [stage2_of, hde]
    · rw [if_pos (by simp)]
      have hsome : (track_ptr ExifTag.ExifOffset (d_ifd0 d) (s0_of d).length none).isSome = true := by
        rw [track_ptr_isSome]
        left
        exact hpe (by rw [hde]; simp)
      rcases hp : track_ptr ExifTag.ExifOffset (d_ifd0 d) (s0_of d).length none with - | p
      · rw [hp] at hsome
        simp at hsome
      · rw [serialize_ifd_eq d.le (s1_of d) (e0 :: erest) p (by rw [hde] at hnse; exact hnse)]
        simp only [stage2_of, hde, hp]
  rw [hstage2]
  simp only []
  have hstage3 : (if d_gps d ≠ [] then
      ExifData.serialize_ifd d.le (stage2_of d) (d_gps d)
        (track_ptr ExifTag.GPSOffset (d_ifd0 d) (s0_of d).length none) else .ok (stage2_of d)) =
      .ok (stage3_of d) := by
    rcases hdg : d_gps d with - | ⟨g0, grest⟩
    · rw [if_neg (by simp)]
      rw [stage3_of, hdg]
    · rw [if_pos (by simp)]
      have hsome : (track_ptr ExifTag.GPSOffset (d_ifd0 d) (s0_of d).length none).isSome = true := by
        rw [track_ptr_isSome]
        left
        exact hpg (by rw [hdg]; simp)
      rcases hp : track_ptr ExifTag.GPSOffset (d_ifd0 d) (s0_of d).length none with - | p
      · rw [hp] at hsome
        simp at hsome
      · rw [serialize_ifd_eq d.le (stage2_of d) (g0 :: grest) p (by rw [hdg] at hnsg; exact hnsg)]
        simp only [stage3_of, hdg, hp]
  rw [hstage3]

theorem serialize_err_ifd1 (d : ExifData) (h1 : d_ifd1 d ≠ []) :
    d.serialize = .error .UnsupportedNamespace := by
  rw [ExifData.serialize]
  rw [show d.entries.filter (fun e => e.kind = IfdKind.Ifd1) = d_ifd1 d from rfl]
  rw [if_pos h1]

theorem serialize_err_ifd0 (d : ExifData) (h1 : d_ifd1 d = [])
    (hbad : ∃ e ∈ d_ifd0 d, e.ifd.nspace ≠ Namespace.Standard) :
    d.serialize = .error .UnsupportedNamespace := by
  rw [ExifData.serialize]
  rw [show d.entries.filter (fun e => e.kind = IfdKind.Ifd1) = d_ifd1 d from rfl, h1]
  simp only [ne_eq, not_true_eq_false, if_false, ite_false]
  rw [show d.entries.filter (fun e => e.kind = IfdKind.Ifd0) = d_ifd0 d from rfl]
  rw [serialize_ifd0_err (d_ifd0 d) _ [] none none hbad]

theorem serialize_err_conditions (d : ExifData)
    (h : d_ifd1 d ≠ [] ∨
      (∃ e ∈ d_ifd0 d ++ d_exif d ++ d_gps d, e.ifd.nspace ≠ Namespace.Standard) ∨
      (d_exif d ≠ [] ∧ ¬∃ e ∈ d_ifd0 d, e.tag = ExifTag.ExifOffset) ∨
      (d_gps d ≠ [] ∧ ¬∃ e ∈ d_ifd0 d, e.tag = ExifTag.GPSOffset)) :
    ∃ err, d.serialize = .error err := by
  by_cases h1 : d_ifd1 d = []
  case neg => exact ⟨_, serialize_err_ifd1 d h1⟩
  by_cases hns0 : ∀ e ∈ d_ifd0 d, e.ifd.nspace = Namespace.Standard
  case neg =>
    push_neg at hns0
    exact ⟨_, serialize_err_ifd0 d h1 hns0⟩
  rw [serialize_step1 d h1 hns0]
  rcases hx : (if d_exif d ≠ [] then
      ExifData.serialize_ifd d.le (s1_of d) (d_exif d)
        (track_ptr ExifTag.ExifOffset (d_ifd0 d) (s0_of d).length none) else .ok (s1_of d))
    with e2 | s2
  · exact ⟨e2, rfl⟩
  simp only []
  have hexif_fine : d_exif d = [] ∨
      ((∀ e ∈ d_exif d, e.ifd.nspace = Namespace.Standard) ∧
        ∃ e ∈ d_ifd0 d, e.tag = ExifTag.ExifOffset) := by
    rcases hde : d_exif d with - | ⟨e0, erest⟩
    · exact Or.inl rfl
    · right
      rw [hde, if_pos (by simp)] at hx
      constructor
      · intro e he
        by_contra hbad
        rcases hp : track_ptr ExifTag.ExifOffset (d_ifd0 d) (s0_of d).length none with - | p
        · rw [hp, serialize_ifd_none] at hx
          cases hx
        · rw [hp, serialize_ifd_err_ns d.le _ _ p ⟨e, by rw [← hde] at he ⊢; exact he, hbad⟩]
            at hx
          cases hx
      · by_contra hnp
        have : (track_ptr ExifTag.ExifOffset (d_ifd0 d) (s0_of d).length none) = none := by
          rcases hq : track_ptr ExifTag.ExifOffset (d_ifd0 d) (s0_of d).length none with - | p
          · rfl
          · have := (track_ptr_isSome ExifTag.ExifOffset (d_ifd0 d) (s0_of d).length none).mp
              (by rw [hq]; rfl)
            rcases this with hc | hc
            · exact absurd hc hnp
            · simp at hc
        rw [this, serialize_ifd_none] at hx
        cases hx
  rcases hy : (if d_gps d ≠ [] then
      ExifData.serialize_ifd d.le s2 (d_gps d)
        (track_ptr ExifTag.GPSOffset (d_ifd0 d) (s0_of d).length none) else .ok s2)
    with e3 | s3
  · exact ⟨e3, rfl⟩
  simp only []
  have hgps_fine : d_gps d = [] ∨
      ((∀ e ∈ d_gps d, e.ifd.nspace = Namespace.Standard) ∧
        ∃ e ∈ d_ifd0 d, e.tag = ExifTag.GPSOffset) := by
    rcases hdg : d_gps d with - | ⟨g0, grest⟩
    · exact Or.inl rfl
    · right
      rw [hdg, if_pos (by simp)] at hy
      constructor
      · intro e he
        by_contra hbad
        rcases hp : track_ptr ExifTag.GPSOffset (d_ifd0 d) (s0_of d).length none with - | p
        · rw [hp, serialize_ifd_none] at hy
          cases hy
        · rw [hp, serialize_ifd_err_ns d.le _ _ p ⟨e, by rw [← hdg] at he ⊢; exact he, hbad⟩]
            at hy
          cases hy
      · by_contra hnp
        have : (track_ptr ExifTag.GPSOffset (d_ifd0 d) (s0_of d).length none) = none := by
          rcases hq : track_ptr ExifTag.GPSOffset (d_ifd0 d) (s0_of d).length none with - | p
          · rfl
          · have := (track_ptr_isSome ExifTag.GPSOffset (d_ifd0 d) (s0_of d).length none).mp
              (by rw [hq]; rfl)
            rcases this with hc | hc
            · exact absurd hc hnp
            · simp at hc
        rw [this, serialize_ifd_none] at hy
        cases hy
  exfalso
  rcases h with h | h | h | h
  · exact h h1
  · obtain ⟨e, he, hbad⟩ := h
    rcases List.mem_append.mp he with he | he
    · rcases List.mem_append.mp he with he | he
      · exact hbad (hns0 e he)
      · rcases hexif_fine with hc | hc
        · rw [hc] at he
          simp at he
        · exact hbad (hc.1 e he)
    · rcases hgps_fine with hc | hc
      · rw [hc] at he
        simp at he
      · exact hbad (hc.1 e he)
  · rcases hexif_fine with hc | hc
    · exact h.1 hc
    · exact h.2 hc.2
  · rcases hgps_fine with hc | hc
    · exact h.1 hc
    · exact h.2 hc.2

/-- C6: serialization returns an error exactly when the thumbnail (IFD-1)
group is non-empty, or some entry to be serialized (IFD-0, Exif or GPS
group) has a non-standard namespace, or the Exif (resp. GPS) group is
non-empty while no top-level entry carries the `ExifOffset` (resp.
`GPSOffset`) pointer tag; in the missing-pointer cases the error is the
missing-pointer error. -/
theorem C6_serialize_error_cases (d : ExifData) :
    ((∃ err, d.serialize = .error err) ↔
      (d_ifd1 d ≠ [] ∨
       (∃ e ∈ d_ifd0 d ++ d_exif d ++ d_gps d, e.ifd.nspace ≠ Namespace.Standard) ∨
       (d_exif d ≠ [] ∧ ¬∃ e ∈ d_ifd0 d, e.tag = ExifTag.ExifOffset) ∨
       (d_gps d ≠ [] ∧ ¬∃ e ∈ d_ifd0 d, e.tag = ExifTag.GPSOffset))) ∧
    (d_ifd1 d = [] → (∀ e ∈ d_ifd0 d, e.ifd.nspace = Namespace.Standard) →
      d_exif d ≠ [] → (¬∃ e ∈ d_ifd0 d, e.tag = ExifTag.ExifOffset) →
      d.serialize = .error .MissingExifOffset) ∧
    (d_ifd1 d = [] → (∀ e ∈ d_ifd0 d, e.ifd.nspace = Namespace.Standard) →
      d_exif d = [] → d_gps d ≠ [] → (¬∃ e ∈ d_ifd0 d, e.tag = ExifTag.GPSOffset) →
      d.serialize = .error .MissingExifOffset) := by
  have htrk : ∀ (tag : ExifTag), (¬∃ e ∈ d_ifd0 d, e.tag = tag) →
      track_ptr tag (d_ifd0 d) (s0_of d).length none = none := by
    intro tag hnp
    rcases hq : track_ptr tag (d_ifd0 d) (s0_of d).length none with - | p
    · rfl
    · have := (track_ptr_isSome tag (d_ifd0 d) (s0_of d).length none).mp (by rw [hq]; rfl)
      rcases this with hc | hc
      · exact absurd hc hnp
      · simp at hc
  refine ⟨⟨?_, serialize_err_conditions d⟩, ?_, ?_⟩
  · rintro ⟨err, herr⟩
    by_contra hnc
    push_neg at hnc
    obtain ⟨hh1, hh2, hh3, hh4⟩ := hnc
    rw [serialize_success d hh1
      (fun e he => hh2 e (List.mem_append_left _ (List.mem_append_left _ he)))
      (fun e he => hh2 e (List.mem_append_left _ (List.mem_append_right _ he)))
      (fun e he => hh2 e (List.mem_append_right _ he)) hh3 hh4] at herr
    cases herr
  · intro h1 hns0 hne hnp
    rw [serialize_step1 d h1 hns0, if_pos hne, htrk _ hnp, serialize_ifd_none]
  · intro h1 hns0 hee hne hnp
    rw [serialize_step1 d h1 hns0, if_neg (by simp [hee])]
    simp only []
    rw [if_pos hne, htrk _ hnp, serialize_ifd_none]

/-- A GPS-group latitude-reference entry used in witnesses. -/
def c6_gps_entry : ExifEntry where
  nspace := .Standard
  tag := ExifTag.GPSLatitudeRef
  ifd := { nspace := .Standard, tag := 0x1, format := .Ascii, count := 2, data := [78, 0],
           ifd_data := [78, 0, 0, 0], ext_data := [], le := true }
  value := .Ascii "N"
  unit := "none"
  value_more_readable := "N"
  kind := .Gps

/-- Witness for C6: a set holding one GPS entry and no `GPSOffset`
top-level pointer fails to serialize with the missing-pointer error. -/
theorem C6_witness :
    ExifData.serialize ⟨"image/tiff", [c6_gps_entry], true⟩ =
      .error .MissingExifOffset := by
  have h := (C6_serialize_error_cases ⟨"image/tiff", [c6_gps_entry], true⟩).2.2
  exact h (by decide) (by decide) (by decide) (by decide) (by decide)

theorem tiff_hdr_length (le : Bool) : (tiff_hdr le).length = 4 := by
  cases le <;> rfl

theorem s0_take_facts (d : ExifData) :
    seg (s0_of d) 0 4 = tiff_hdr d.le ∧ seg (s0_of d) 4 4 = u32_bytes d.le 8 := by
  rcases d with ⟨m, en, le⟩
  cases le <;>
    simp [s0_of, tiff_hdr, intel_tiff_header, motorola_tiff_header, u32_bytes, seg,
      d_ifd0]

theorem track_ptr_pos_bounds (tag : ExifTag) :
    ∀ (entries : List ExifEntry) (base : Nat) (cur : Option Nat) (p : Nat),
    track_ptr tag entries base cur = some p →
    cur = some p ∨ (base + 4 ≤ p ∧ p + 4 ≤ base + (records entries).length) := by
  intro entries
  induction entries with
  | nil =>
    intro base cur p hp
    exact Or.inl hp
  | cons e rest ih =>
    intro base cur p hp
    rw [track_ptr] at hp
    have hrl := entry_record_length e.ifd
    have hge : 8 ≤ (entry_record e.ifd).length := by
      rw [hrl]
      by_cases hi : e.ifd.in_ifd <;> simp [hi] <;> omega
    rcases ih _ _ p hp with hc | hc
    · by_cases ht : e.tag = tag
      · rw [if_pos ht] at hc
        right
        have hpv : p = base + (entry_record e.ifd).length - 4 := by
          cases hc
          rfl
      -- bounds for the freshly recorded position
        rw [records_cons, List.length_append]
        omega
      · rw [if_neg ht] at hc
        exact Or.inl hc
    · right
      rw [records_cons, List.length_append]
      omega

theorem s1_of_length (d : ExifData) :
    (s1_of d).length = (s0_of d).length + (records (d_ifd0 d)).length + 4 +
      patch_total (entry_patches (d_ifd0 d) (s0_of d).length) := by
  rw [s1_of, apply_patches_length]
  simp only [List.length_append, List.length_cons, List.length_nil]

theorem sub_stage_length (le : Bool) (s : List Nat) (entries : List ExifEntry) (p : Nat) :
    (sub_stage le s entries p).length = s.length + 2 + (records entries).length + 4 +
      patch_total (entry_patches entries (s.length + 2)) := by
  rw [sub_stage, apply_patches_length]
  simp only [List.length_append, List.length_cons, List.length_nil, write_at_length,
    u16_bytes_length]

theorem stage2_ge (d : ExifData) : (s1_of d).length ≤ (stage2_of d).length := by
  rw [stage2_of]
  rcases hde : d_exif d with - | ⟨e0, erest⟩
  · simp
  · rcases hp : track_ptr ExifTag.ExifOffset (d_ifd0 d) (s0_of d).length none with - | p
    · simp
    · simp only []
      rw [sub_stage_length]
      omega

theorem stage3_ge (d : ExifData) : (stage2_of d).length ≤ (stage3_of d).length := by
  rw [stage3_of]
  rcases hdg : d_gps d with - | ⟨g0, grest⟩
  · simp
  · rcases hp : track_ptr ExifTag.GPSOffset (d_ifd0 d) (s0_of d).length none with - | p
    · simp
    · simp only []
      rw [sub_stage_length]
      omega

theorem s1_stable (d : ExifData) (hbnd : (s1_of d).length ≤ 2 ^ 32)
    (pos len : Nat) (hin : pos + len ≤ (s0_of d).length) :
    seg (s1_of d) pos len = seg (s0_of d) pos len := by
  have hnw : (s0_of d).length + (records (d_ifd0 d)).length ≤ 2 ^ 32 := by
    have := s1_of_length d
    omega
  have hb := entry_patches_bounds (d_ifd0 d) (s0_of d).length hnw
  rw [s1_of]
  rw [apply_patches_stable d.le _ _ pos len ?_ ?_ ?_]
  · rw [seg_append_left _ _ pos len (by simp only [List.length_append]; omega)]
    exact seg_append_left _ _ pos len hin
  · intro q hq
    have := hb q hq
    simp only [List.length_append, List.length_cons, List.length_nil]
    omega
  · simp only [List.length_append, List.length_cons, List.length_nil]
    omega
  · intro q hq
    have := hb q hq
    right
    omega

theorem sub_stage_stable (le : Bool) (s : List Nat) (entries : List ExifEntry) (p : Nat)
    (hbnd : (sub_stage le s entries p).length ≤ 2 ^ 32)
    (hp4 : p + 4 ≤ s.length)
    (pos len : Nat) (hin : pos + len ≤ s.length)
    (hdisj : p + 4 ≤ pos ∨ pos + len ≤ p) :
    seg (sub_stage le s entries p) pos len = seg s pos len := by
  have hnw : (s.length + 2) + (records entries).length ≤ 2 ^ 32 := by
    have := sub_stage_length le s entries p
    omega
  have hb := entry_patches_bounds entries (s.length + 2) hnw
  have hwlen : (write_at (s ++ u16_bytes le entries.length) p (u32_bytes le s.length)).length =
      s.length + 2 := by
    rw [write_at_length]
    simp [u16_bytes_length]
  have hw : p + (u32_bytes le s.length).length ≤ (s ++ u16_bytes le entries.length).length := by
    rw [u32_bytes_length]
    simp only [List.length_append, u16_bytes_length]
    omega
  rw [sub_stage]
  rw [apply_patches_stable le _ _ pos len ?_ ?_ ?_]
  · rw [seg_append_left _ _ pos len
      (by simp only [List.length_append, hwlen]; omega)]
    rw [seg_append_left _ _ pos len (by rw [hwlen]; omega)]
    have hstep : seg (write_at (s ++ u16_bytes le entries.length) p (u32_bytes le s.length))
        pos len = seg (s ++ u16_bytes le entries.length) pos len := by
      rcases hdisj with hd | hd
      · rw [seg_write_at_right _ _ _ _ _ hw (by rw [u32_bytes_length]; omega)]
      · rw [seg_write_at_left _ _ _ _ _ hw hd]
    rw [hstep]
    exact seg_append_left _ _ pos len hin
  · intro q hq
    have := hb q hq
    simp only [List.length_append, List.length_cons, List.length_nil, hwlen]
    omega
  · simp only [List.length_append, List.length_cons, List.length_nil, hwlen]
    omega
  · intro q hq
    have := hb q hq
    right
    omega

theorem track_ptr_from_none_bounds (tag : ExifTag) (entries : List ExifEntry) (base p : Nat)
    (hp : track_ptr tag entries base none = some p) :
    base + 4 ≤ p ∧ p + 4 ≤ base + (records entries).length := by
  rcases track_ptr_pos_bounds tag entries base none p hp with hc | hc
  · cases hc
  · exact hc

theorem stage2_stable (d : ExifData)
    (hbnd : (stage2_of d).length ≤ 2 ^ 32)
    (pos len : Nat) (hin : pos + len ≤ (s1_of d).length)
    (hdisjE : ∀ p : Nat,
      track_ptr ExifTag.ExifOffset (d_ifd0 d) (s0_of d).length none = some p →
      p + 4 ≤ pos ∨ pos + len ≤ p) :
    seg (stage2_of d) pos len = seg (s1_of d) pos len := by
  rw [stage2_of]
  rcases hde : d_exif d with - | ⟨e0, erest⟩
  · rfl
  · rcases hp : track_ptr ExifTag.ExifOffset (d_ifd0 d) (s0_of d).length none with - | p
    · rfl
    · simp only []
      have hb := track_ptr_from_none_bounds ExifTag.ExifOffset (d_ifd0 d) (s0_of d).length p hp
      have hbnd' : (sub_stage d.le (s1_of d) (d_exif d) p).length ≤ 2 ^ 32 := by
        rw [stage2_of, hde, hp] at hbnd
        rw [hde]
        exact hbnd
      have hp4 : p + 4 ≤ (s1_of d).length := by
        have := s1_of_length d
        omega
      rw [hde] at hbnd'
      exact sub_stage_stable d.le (s1_of d) (e0 :: erest) p hbnd' hp4 pos len hin
        (hdisjE p hp)

theorem stage3_stable (d : ExifData)
    (hbnd : (stage3_of d).length ≤ 2 ^ 32)
    (pos len : Nat) (hin : pos + len ≤ (stage2_of d).length)
    (hdisjG : ∀ p : Nat,
      track_ptr ExifTag.GPSOffset (d_ifd0 d) (s0_of d).length none = some p →
      p + 4 ≤ pos ∨ pos + len ≤ p) :
    seg (stage3_of d) pos len = seg (stage2_of d) pos len := by
  rw [stage3_of]
  rcases hdg : d_gps d with - | ⟨g0, grest⟩
  · rfl
  · rcases hp : track_ptr ExifTag.GPSOffset (d_ifd0 d) (s0_of d).length none with - | p
    · rfl
    · simp only []
      have hb := track_ptr_from_none_bounds ExifTag.GPSOffset (d_ifd0 d) (s0_of d).length p hp
      have hbnd' : (sub_stage d.le (stage2_of d) (d_gps d) p).length ≤ 2 ^ 32 := by
        rw [stage3_of, hdg, hp] at hbnd
        rw [hdg]
        exact hbnd
      have hp4 : p + 4 ≤ (stage2_of d).length := by
        have h1 := s1_of_length d
        have h2 := stage2_ge d
        omega
      rw [hdg] at hbnd'
      exact sub_stage_stable d.le (stage2_of d) (g0 :: grest) p hbnd' hp4 pos len hin
        (hdisjG p hp)

theorem seg_zero_take (s : List Nat) (len : Nat) : seg s 0 len = s.take len := by
  simp [seg]

/-- C7 (amended): for every set whose serialization succeeds with an
output of at most `2^32` bytes, the TIFF-layout body begins with the
4-byte byte-order header matching the set's endianness, followed by a
4-byte offset field decoding (in the set's endianness) to 8; the output
is the body prefixed with the 6 literal bytes `Exif\x00\x00` when the
set's MIME is `image/jpeg`, and the bare, unprefixed body otherwise. -/
theorem C7_header_amended (d : ExifData) (out : List Nat)
    (hok : d.serialize = .ok out) (hbound : out.length ≤ 2 ^ 32) :
    ∃ body, out = (if d.mime = "image/jpeg" then exif_header ++ body else body) ∧
      body.take 4 = (if d.le then intel_tiff_header else motorola_tiff_header) ∧
      read_u32 d.le (body.drop 4) = some 8 ∧
      (d.mime ≠ "image/jpeg" → out.take 6 ≠ exif_header) := by
  have hconds : ¬(d_ifd1 d ≠ [] ∨
      (∃ e ∈ d_ifd0 d ++ d_exif d ++ d_gps d, e.ifd.nspace ≠ Namespace.Standard) ∨
      (d_exif d ≠ [] ∧ ¬∃ e ∈ d_ifd0 d, e.tag = ExifTag.ExifOffset) ∨
      (d_gps d ≠ [] ∧ ¬∃ e ∈ d_ifd0 d, e.tag = ExifTag.GPSOffset)) := by
    intro hc
    obtain ⟨err, herr⟩ := serialize_err_conditions d hc
    rw [hok] at herr
    cases herr
  push_neg at hconds
  obtain ⟨hh1, hh2, hh3, hh4⟩ := hconds
  have hser := serialize_success d hh1
    (fun e he => hh2 e (List.mem_append_left _ (List.mem_append_left _ he)))
    (fun e he => hh2 e (List.mem_append_left _ (List.mem_append_right _ he)))
    (fun e he => hh2 e (List.mem_append_right _ he)) hh3 hh4
  have hout : (if d.mime = "image/jpeg" then exif_header ++ stage3_of d
      else stage3_of d) = out := Except.ok.inj (hser.symm.trans hok)
  have hlen3 : (stage3_of d).length ≤ 2 ^ 32 := by
    rw [← hout] at hbound
    by_cases hm : d.mime = "image/jpeg"
    · rw [if_pos hm] at hbound
      simp only [List.length_append] at hbound
      omega
    · rw [if_neg hm] at hbound
      exact hbound
  have hlen2 : (stage2_of d).length ≤ 2 ^ 32 := le_trans (stage3_ge d) hlen3
  have hlen1 : (s1_of d).length ≤ 2 ^ 32 := le_trans (stage2_ge d) hlen2
  have hs0 := s0_length d
  have hs1ge : 10 ≤ (s1_of d).length := by
    have := s1_of_length d
    omega
  have hs2ge : 10 ≤ (stage2_of d).length := le_trans hs1ge (stage2_ge d)
  have hdE : ∀ p : Nat,
      track_ptr ExifTag.ExifOffset (d_ifd0 d) (s0_of d).length none = some p → 8 ≤ p := by
    intro p hp
    have := (track_ptr_from_none_bounds _ _ _ _ hp).1
    omega
  have hdG : ∀ p : Nat,
      track_ptr ExifTag.GPSOffset (d_ifd0 d) (s0_of d).length none = some p → 8 ≤ p := by
    intro p hp
    have := (track_ptr_from_none_bounds _ _ _ _ hp).1
    omega
  have hseg : ∀ pos len, pos + len ≤ 8 →
      seg (stage3_of d) pos len = seg (s0_of d) pos len := by
    intro pos len hin
    rw [stage3_stable d hlen3 pos len (by omega)
      (fun p hp => Or.inr (by have := hdG p hp; omega))]
    rw [stage2_stable d hlen2 pos len (by omega)
      (fun p hp => Or.inr (by have := hdE p hp; omega))]
    exact s1_stable d hlen1 pos len (by omega)
  have hseg04 : seg (stage3_of d) 0 4 = tiff_hdr d.le := by
    rw [hseg 0 4 (by omega)]
    exact (s0_take_facts d).1
  have hseg48 : seg (stage3_of d) 4 4 = u32_bytes d.le 8 := by
    rw [hseg 4 4 (by omega)]
    exact (s0_take_facts d).2
  refine ⟨stage3_of d, hout.symm, ?_, ?_, ?_⟩
  · rw [← seg_zero_take]
    exact hseg04
  · exact read_u32_of_seg d.le (stage3_of d) 4 8 hseg48 (by norm_num)
  · intro hm hcon
    rw [← hout, if_neg hm] at hcon
    have h1 : ((stage3_of d).take 6).take 4 = (stage3_of d).take 4 := by
      rw [List.take_take]
      norm_num
    have h2 : (stage3_of d).take 4 = tiff_hdr d.le := by
      rw [← seg_zero_take]
      exact hseg04
    rw [hcon, h2] at h1
    rcases d with ⟨m, en, le⟩
    cases le <;> simp [tiff_hdr, intel_tiff_header, motorola_tiff_header, exif_header] at h1


/-- An empty little-endian JPEG set used in the C7 witness. -/
def c7w : ExifData := ⟨"image/jpeg", [], true⟩

/-- The 20-byte serialization of `c7w`. -/
def c7w_out : List Nat :=
  exif_header ++ [0x49, 0x49, 0x2a, 0, 8, 0, 0, 0, 0, 0, 0, 0, 0, 0]

/-- Witness for C7's amended theorem: the empty JPEG set serializes to
the `Exif\x00\x00` prefix, the little-endian header, and the offset 8. -/
theorem C7_amended_witness :
    ∃ body, c7w_out = (if c7w.mime = "image/jpeg" then exif_header ++ body else body) ∧
      body.take 4 = (if c7w.le then intel_tiff_header else motorola_tiff_header) ∧
      read_u32 c7w.le (body.drop 4) = some 8 ∧
      (c7w.mime ≠ "image/jpeg" → c7w_out.take 6 ≠ exif_header) :=
  C7_header_amended c7w c7w_out (by rfl) (by decide)

/-- Size of the oversized external payload: chosen so that the Exif
sub-directory record of `c7cex` lands exactly at byte `2^32`. -/
def c7N : Nat := 2 ^ 32 - 48

/-- An IFD-0 entry with an external payload of `c7N` bytes. -/
def c7eH : ExifEntry where
  nspace := .Standard
  tag := ExifTag.Orientation
  ifd := { nspace := .Standard, tag := 0x010e, format := .Undefined, count := 5,
           data := List.replicate c7N 0, ifd_data := [0, 0, 0, 0], ext_data := [], le := true }
  value := .Undefined [] true
  unit := "none"
  value_more_readable := ""
  kind := .Ifd0

/-- An inline `ExifOffset` pointer entry. -/
def c7eP : ExifEntry where
  nspace := .Standard
  tag := ExifTag.ExifOffset
  ifd := { nspace := .Standard, tag := 0x8769, format := .U32, count := 1,
           data := [0, 0, 0, 0], ifd_data := [0, 0, 0, 0], ext_data := [], le := true }
  value := .U32 [0]
  unit := "none"
  value_more_readable := ""
  kind := .Ifd0

/-- An Exif-group entry with a small external payload. -/
def c7eX : ExifEntry where
  nspace := .Standard
  tag := ExifTag.ExifVersion
  ifd := { nspace := .Standard, tag := 0x9000, format := .Undefined, count := 5,
           data := [1, 2, 3, 4, 5], ifd_data := [0, 0, 0, 0], ext_data := [], le := true }
  value := .Undefined [1, 2, 3, 4, 5] true
  unit := "none"
  value_more_readable := ""
  kind := .Exif

/-- A set that serializes successfully but whose Exif-group patch
position wraps modulo `2^32` to 0, overwriting the byte-order header. -/
def c7cex : ExifData := ⟨"image/tiff", [c7eH, c7eP, c7eX], true⟩

/-- Group decomposition of `c7cex`. -/
theorem c7_groups : d_ifd0 c7cex = [c7eH, c7eP] ∧ d_ifd1 c7cex = [] ∧
    d_exif c7cex = [c7eX] ∧ d_gps c7cex = [] := by
  refine ⟨?_, ?_, ?_, ?_⟩ <;> rfl

/-- The `ExifOffset` pointer field of `c7cex` sits at position 30. -/
theorem c7_track : track_ptr ExifTag.ExifOffset (d_ifd0 c7cex) (s0_of c7cex).length none =
    some 30 := by
  rfl

/-- After IFD-0, the buffer of `c7cex` holds `2^32 - 10` bytes. -/
theorem c7_s1_len : (s1_of c7cex).length = 2 ^ 32 - 10 := by
  rw [s1_of_length, s0_length, c7_groups.1]
  have hrec : (records [c7eH, c7eP]).length = 24 := by rfl
  have hpt : patch_total (entry_patches [c7eH, c7eP] 10) = c7N := by
    have : entry_patches [c7eH, c7eP] 10 = [⟨18, List.replicate c7N 0⟩] := by rfl
    rw [this]
    simp [patch_total]
  rw [hrec, hpt]
  norm_num [c7N]

/-- The final body of `c7cex`: one sub-directory patch whose stored
`u32` field position wrapped to 0. -/
theorem c7_stage3 : stage3_of c7cex =
    write_at
      ((write_at (s1_of c7cex ++ u16_bytes true 1) 30 (u32_bytes true (s1_of c7cex).length) ++
        records [c7eX] ++ [0, 0, 0, 0]) ++ [1, 2, 3, 4, 5]) 0
      (u32_bytes true
        ((write_at (s1_of c7cex ++ u16_bytes true 1) 30 (u32_bytes true (s1_of c7cex).length) ++
          records [c7eX] ++ [0, 0, 0, 0]).length)) := by
  rw [stage3_of]
  rw [c7_groups.2.2.2]
  simp only []
  rw [stage2_of, c7_groups.2.2.1, c7_track]
  simp only []
  rw [sub_stage]
  have hep : entry_patches [c7eX] ((s1_of c7cex).length + 2) =
      [⟨0, [1, 2, 3, 4, 5]⟩] := by
    rw [entry_patches]
    have hin : c7eX.ifd.in_ifd = false := by rfl
    rw [hin]
    simp only [Bool.false_eq_true, ite_false, List.singleton_append]
    rw [entry_patches]
    have : ((s1_of c7cex).length + 2 + 8) % 2 ^ 32 = 0 := by
      rw [c7_s1_len]
      norm_num
    rw [this]
    rfl
  rw [hep]
  rw [apply_patches, apply_patches]
  rfl

/-- C7 (counterexample): a set whose serialization succeeds (output over
4 GiB) but whose TIFF-layout body does NOT begin with the byte-order
header: the Exif sub-directory's patch field position, cast to `u32`,
wraps to 0 and the backfill overwrites the header with `[8,0,0,0]`. -/
theorem C7_counterexample :
    (ExifData.serialize c7cex).map (fun out => out.take 4) = .ok [8, 0, 0, 0] ∧
    c7cex.le = true ∧ c7cex.mime = "image/tiff" ∧
    ([8, 0, 0, 0] : List Nat) ≠ intel_tiff_header := by
  have hns : ∀ e ∈ d_ifd0 c7cex ++ d_exif c7cex ++ d_gps c7cex,
      e.ifd.nspace = Namespace.Standard := by
    intro e he
    rw [c7_groups.1, c7_groups.2.2.1, c7_groups.2.2.2] at he
    simp only [List.append_nil, List.mem_append, List.mem_cons, List.mem_singleton,
      List.not_mem_nil, or_false] at he
    rcases he with (rfl | rfl) | rfl <;> rfl
  have hser := serialize_success c7cex c7_groups.2.1
    (fun e he => hns e (List.mem_append_left _ (List.mem_append_left _ he)))
    (fun e he => hns e (List.mem_append_left _ (List.mem_append_right _ he)))
    (fun e he => hns e (List.mem_append_right _ he))
    (fun _ => ⟨c7eP, by
      rw [c7_groups.1]
      exact List.mem_cons_of_mem _ (List.mem_cons_self _ _), rfl⟩)
    (fun h => absurd c7_groups.2.2.2 h)
  rw [hser]
  refine ⟨?_, rfl, rfl, by decide⟩
  rw [if_neg (show ¬c7cex.mime = "image/jpeg" by decide)]
  simp only [Except.map]
  have htake : (stage3_of c7cex).take 4 = [8, 0, 0, 0] := by
    rw [c7_stage3]
    have hblen : (write_at (s1_of c7cex ++ u16_bytes true 1) 30
        (u32_bytes true (s1_of c7cex).length) ++
        records [c7eX] ++ [0, 0, 0, 0]).length = 2 ^ 32 + 8 := by
      rw [List.length_append, List.length_append, write_at_length, List.length_append,
        u16_bytes_length, c7_s1_len]
      rw [show (records [c7eX]).length = 12 from rfl]
      rw [show ([0, 0, 0, 0] : List Nat).length = 4 from rfl]
      omega
    rw [hblen]
    have hbytes : u32_bytes true (2 ^ 32 + 8) = [8, 0, 0, 0] := by
      rw [u32_bytes]
      norm_num
    rw [hbytes]
    rw [write_at_eq _ 0 _ (by
      rw [List.length_append]
      rw [show ([8, 0, 0, 0] : List Nat).length = 4 from rfl]
      omega)]
    rw [List.take_zero, List.nil_append]
    rw [take_append_le _ _ 4 (by rw [show ([8, 0, 0, 0] : List Nat).length = 4 from rfl])]
    rfl
  rw [htake]

/-- A top-level `ExifOffset` pointer entry whose payload does NOT fit
inline (format `U32`, count 2): its 8 payload bytes are enqueued as a
patch whose backfilled offset field is later overwritten by the Exif
sub-directory pointer backfill. -/
def c8ePbad : ExifEntry where
  nspace := .Standard
  tag := ExifTag.ExifOffset
  ifd := { nspace := .Standard, tag := 0x8769, format := .U32, count := 2,
           data := [1, 2, 3, 4, 5, 6, 7, 8], ifd_data := [0, 0, 0, 0], ext_data := [],
           le := true }
  value := .U32 [0]
  unit := "none"
  value_more_readable := ""
  kind := .Ifd0

/-- An inline Exif-group entry forcing the Exif sub-directory pass. -/
def c8eX : ExifEntry where
  nspace := .Standard
  tag := ExifTag.ExifVersion
  ifd := { nspace := .Standard, tag := 0x9000, format := .Undefined, count := 4,
           data := [9, 9, 9, 9], ifd_data := [9, 9, 9, 9], ext_data := [], le := true }
  value := .Undefined [9, 9, 9, 9] true
  unit := "none"
  value_more_readable := ""
  kind := .Exif

/-- The C8 counterexample set: one non-inline `ExifOffset` IFD-0 entry
and a non-empty Exif group. -/
def c8cex : ExifData := ⟨"image/tiff", [c8ePbad, c8eX], true⟩

/-- The 52-byte buffer `serialize` produces for `c8cex`. -/
def c8out : List Nat :=
  [73, 73, 42, 0, 8, 0, 0, 0, 1, 0, 105, 135, 4, 0, 2, 0, 0, 0, 34, 0, 0, 0, 0, 0, 0, 0,
   1, 2, 3, 4, 5, 6, 7, 8, 1, 0, 0, 144, 7, 0, 4, 0, 0, 0, 9, 9, 9, 9, 0, 0, 0, 0]

/-- C8 (counterexample): claim C8 says every record whose payload does
not fit inline has its 4-byte data field backfilled with the resolved
offset of its appended payload.  For `c8cex` serialization succeeds and
the payload `[1..8]` of the only non-inline record is appended at offset
26, but the record's data field (buffer offset 18) decodes to 34: the
entry carries the `ExifOffset` tag, so after the patch pass the Exif
sub-directory pointer backfill overwrites the same 4 bytes with the
sub-directory's offset.  The field no longer points at its payload. -/
theorem C8_counterexample :
    ExifData.serialize c8cex = .ok c8out ∧
    d_ifd0 c8cex = [c8ePbad] ∧
    c8ePbad.ifd.in_ifd = false ∧
    entry_patches (d_ifd0 c8cex) 10 = [⟨18, [1, 2, 3, 4, 5, 6, 7, 8]⟩] ∧
    (s0_of c8cex ++ records (d_ifd0 c8cex) ++ [0, 0, 0, 0]).length = 26 ∧
    (c8out.drop 26).take 8 = [1, 2, 3, 4, 5, 6, 7, 8] ∧
    read_u32 true (c8out.drop 18) = some 34 ∧
    (c8out.drop 34).take 8 ≠ [1, 2, 3, 4, 5, 6, 7, 8] ∧
    (34 : Nat) ≠ 26 := by
  refine ⟨by rfl, by rfl, by rfl, by rfl, by rfl, by rfl, by rfl, by decide, by decide⟩

/-- The bytes a directory's patch list appends are exactly its external
payload bytes. -/
theorem patch_total_entry_patches :
    ∀ (entries : List ExifEntry) (base : Nat),
    patch_total (entry_patches entries base) = ext_total entries := by
  intro entries
  induction entries with
  | nil =>
    intro base
    rfl
  | cons e rest ih =>
    intro base
    rw [entry_patches, patch_total_append, ih, ext_total]
    by_cases hi : e.ifd.in_ifd <;> simp [hi, patch_total]

/-- An external entry's payload together with the external bytes before
it fit within the directory's external total. -/
theorem ext_total_take_le :
    ∀ (entries : List ExifEntry) (j : Nat) (ej : ExifEntry),
    entries.get? j = some ej → ej.ifd.in_ifd = false →
    ext_total (entries.take j) + ej.ifd.data.length ≤ ext_total entries := by
  intro entries
  induction entries with
  | nil =>
    intro j ej hj
    simp at hj
  | cons e rest ih =>
    intro j ej hj hext
    cases j with
    | zero =>
      have he : e = ej := by simpa using hj
      subst he
      simp only [List.take_zero, ext_total, hext]
      simp
    | succ k =>
      have hk : rest.get? k = some ej := by simpa using hj
      have := ih k ej hk hext
      simp only [List.take_succ_cons, ext_total]
      omega

/-- Layout of one serialized directory after its patch pass: for every
non-inline entry, the 4-byte data field of its record holds the offset at
which its payload bytes were appended, payloads in record order. -/
theorem directory_layout_facts (le : Bool) (A : List Nat) (entries : List ExifEntry)
    (h4 : ∀ e ∈ entries, e.ifd.in_ifd = true → e.ifd.data.length = 4)
    (hnw : A.length + 12 * entries.length + 4 + ext_total entries ≤ 2 ^ 32) :
    ∀ (j : Nat) (ej : ExifEntry), entries.get? j = some ej → ej.ifd.in_ifd = false →
      seg (apply_patches le (A ++ records entries ++ [0, 0, 0, 0])
          (entry_patches entries A.length)) (A.length + 12 * j + 8) 4 =
        u32_bytes le (A.length + 12 * entries.length + 4 + ext_total (entries.take j)) ∧
      seg (apply_patches le (A ++ records entries ++ [0, 0, 0, 0])
          (entry_patches entries A.length))
        (A.length + 12 * entries.length + 4 + ext_total (entries.take j))
        ej.ifd.data.length = ej.ifd.data := by
  intro j ej hj hext
  have hreclen := records_length_of_4 entries h4
  have hClen : (A ++ records entries ++ [0, 0, 0, 0]).length =
      A.length + 12 * entries.length + 4 := by
    simp only [List.length_append, hreclen, List.length_cons, List.length_nil]
  have hnwr : A.length + (records entries).length ≤ 2 ^ 32 := by
    rw [hreclen]
    omega
  obtain ⟨j', hget, htot⟩ := entry_patches_indexed entries A.length h4 (by omega) j ej hj hext
  have hb : ∀ p ∈ entry_patches entries A.length,
      p.offset_pos + 4 ≤ (A ++ records entries ++ [0, 0, 0, 0]).length := by
    intro p hp
    have h1 := (entry_patches_bounds entries A.length hnwr p hp).2
    rw [hClen, hreclen] at *
    omega
  have hfacts := apply_patches_facts le (entry_patches entries A.length)
    (A ++ records entries ++ [0, 0, 0, 0]) hb (entry_patches_sorted entries A.length hnwr)
    j' _ hget
  rw [hClen, htot] at hfacts
  exact hfacts

/-- A reserved pointer position produced by the IFD-0 pass is the data
field of some record carrying the searched tag (12-byte records). -/
theorem track_ptr_index (tag : ExifTag) :
    ∀ (entries : List ExifEntry) (base : Nat) (cur : Option Nat) (p : Nat),
    (∀ e ∈ entries, e.ifd.in_ifd = true → e.ifd.data.length = 4) →
    track_ptr tag entries base cur = some p →
    cur = some p ∨ ∃ i e, entries.get? i = some e ∧ e.tag = tag ∧ p = base + 12 * i + 8 := by
  intro entries
  induction entries with
  | nil =>
    intro base cur p _ hp
    exact Or.inl hp
  | cons e rest ih =>
    intro base cur p h4 hp
    rw [track_ptr] at hp
    have h12 : (entry_record e.ifd).length = 12 :=
      entry_record_length_of_4 e.ifd (h4 e (by simp))
    rw [h12] at hp
    rcases ih (base + 12) _ p (fun x hx => h4 x (by simp [hx])) hp with hc | ⟨i, x, hix, hxt, hpv⟩
    · by_cases ht : e.tag = tag
      · rw [if_pos ht] at hc
        injection hc with hc
        right
        exact ⟨0, e, by simp, ht, by omega⟩
      · rw [if_neg ht] at hc
        exact Or.inl hc
    · right
      exact ⟨i + 1, x, by simpa using hix, hxt, by omega⟩

/-- Layout of a serialized sub-directory: the reserved pointer slot gets
the sub-directory's start offset, and each non-inline record's data field
points at its appended payload. -/
theorem sub_stage_layout (le : Bool) (s : List Nat) (entries : List ExifEntry) (p : Nat)
    (h4 : ∀ e ∈ entries, e.ifd.in_ifd = true → e.ifd.data.length = 4)
    (hp4 : p + 4 ≤ s.length)
    (hbnd : (sub_stage le s entries p).length ≤ 2 ^ 32) :
    seg (sub_stage le s entries p) p 4 = u32_bytes le s.length ∧
    ∀ (j : Nat) (ej : ExifEntry), entries.get? j = some ej → ej.ifd.in_ifd = false →
      seg (sub_stage le s entries p) (s.length + 2 + 12 * j + 8) 4 =
        u32_bytes le (s.length + 2 + 12 * entries.length + 4 + ext_total (entries.take j)) ∧
      seg (sub_stage le s entries p) (s.length + 2 + 12 * entries.length + 4 +
          ext_total (entries.take j)) ej.ifd.data.length = ej.ifd.data := by
  have hWlen : (write_at (s ++ u16_bytes le entries.length) p (u32_bytes le s.length)).length =
      s.length + 2 := by
    rw [write_at_length]
    simp [u16_bytes_length]
  have hsublen := sub_stage_length le s entries p
  rw [patch_total_entry_patches, records_length_of_4 entries h4] at hsublen
  have hnw : (s.length + 2) + 12 * entries.length + 4 + ext_total entries ≤ 2 ^ 32 := by
    omega
  constructor
  · rw [sub_stage]
    have hb : ∀ q ∈ entry_patches entries (s.length + 2),
        q.offset_pos + 4 ≤ (write_at (s ++ u16_bytes le entries.length) p
          (u32_bytes le s.length) ++ records entries ++ [0, 0, 0, 0]).length := by
      intro q hq
      have := (entry_patches_bounds entries (s.length + 2)
        (by rw [records_length_of_4 entries h4]; omega) q hq).2
      simp only [List.length_append, List.length_cons, List.length_nil, hWlen]
      rw [records_length_of_4 entries h4] at *
      omega
    rw [apply_patches_stable le _ _ p 4 hb ?_ ?_]
    · rw [seg_append_left _ _ p 4 (by
        simp only [List.length_append, hWlen]
        omega)]
      rw [seg_append_left _ _ p 4 (by rw [hWlen]; omega)]
      have hw : p + (u32_bytes le s.length).length ≤
          (s ++ u16_bytes le entries.length).length := by
        rw [u32_bytes_length]
        simp only [List.length_append, u16_bytes_length]
        omega
      have := seg_write_at_self (s ++ u16_bytes le entries.length) p
        (u32_bytes le s.length) hw
      rw [u32_bytes_length] at this
      exact this
    · simp only [List.length_append, List.length_cons, List.length_nil, hWlen]
      omega
    · intro q hq
      have := (entry_patches_bounds entries (s.length + 2)
        (by rw [records_length_of_4 entries h4]; omega) q hq).1
      right
      omega
  · intro j ej hj hext
    have hfacts := directory_layout_facts le
      (write_at (s ++ u16_bytes le entries.length) p (u32_bytes le s.length)) entries h4
      (by rw [hWlen]; omega) j ej hj hext
    rw [hWlen] at hfacts
    rw [sub_stage]
    exact hfacts

/-- An index with a `get?` value is in range. -/
theorem get_some_lt {α : Type} (l : List α) (n : Nat) (a : α) (h : l.get? n = some a) :
    n < l.length := by
  by_contra hc
  push_neg at hc
  rw [List.get?_eq_none.mpr hc] at h
  cases h

/-- A `get?` value is a member. -/
theorem get_some_mem {α : Type} (l : List α) (n : Nat) (a : α) (h : l.get? n = some a) :
    a ∈ l := List.get?_mem h

/-- Every reserved pointer slot lies within the IFD-0 record block. -/
theorem track_ptr_le (d : ExifData) (tag : ExifTag)
    (h4 : ∀ e ∈ d_ifd0 d, e.ifd.in_ifd = true → e.ifd.data.length = 4) :
    ∀ p : Nat, track_ptr tag (d_ifd0 d) (s0_of d).length none = some p →
      p + 4 ≤ 10 + 12 * (d_ifd0 d).length := by
  intro p hp
  rcases track_ptr_index tag (d_ifd0 d) _ none p h4 hp with hc | ⟨k, ek, hk, hkt, hpv⟩
  · cases hc
  have hs0 := s0_length d
  have hklt := get_some_lt _ _ _ hk
  omega

/-- When the top-level pointer entries are inline, a reserved pointer
slot never overlaps the data field of a non-inline IFD-0 record. -/
theorem track_ptr_field_disjoint (d : ExifData) (tag : ExifTag)
    (h4 : ∀ e ∈ d_ifd0 d, e.ifd.in_ifd = true → e.ifd.data.length = 4)
    (hptr : ∀ e ∈ d_ifd0 d, (e.tag = ExifTag.ExifOffset ∨ e.tag = ExifTag.GPSOffset) →
      e.ifd.in_ifd = true)
    (htag : tag = ExifTag.ExifOffset ∨ tag = ExifTag.GPSOffset)
    (i : Nat) (ei : ExifEntry) (hi : (d_ifd0 d).get? i = some ei)
    (hext : ei.ifd.in_ifd = false) :
    ∀ p : Nat, track_ptr tag (d_ifd0 d) (s0_of d).length none = some p →
      p + 4 ≤ 10 + 12 * i + 8 ∨ 10 + 12 * i + 8 + 4 ≤ p := by
  intro p hp
  rcases track_ptr_index tag (d_ifd0 d) _ none p h4 hp with hc | ⟨k, ek, hk, hkt, hpv⟩
  · cases hc
  have hs0 := s0_length d
  have hkin : ek.ifd.in_ifd = true := by
    refine hptr ek (get_some_mem _ _ _ hk) ?_
    rcases htag with h | h
    · exact Or.inl (h ▸ hkt)
    · exact Or.inr (h ▸ hkt)
  have hne : i ≠ k := by
    intro he
    subst he
    rw [hi] at hk
    injection hk with hk
    rw [← hk, hext] at hkin
    cases hkin
  omega

/-- The Exif and GPS reserved pointer slots never overlap: they are data
fields of records with different tags. -/
theorem track_ptr_pair_disjoint (d : ExifData)
    (h4 : ∀ e ∈ d_ifd0 d, e.ifd.in_ifd = true → e.ifd.data.length = 4) :
    ∀ pe pg : Nat,
      track_ptr ExifTag.ExifOffset (d_ifd0 d) (s0_of d).length none = some pe →
      track_ptr ExifTag.GPSOffset (d_ifd0 d) (s0_of d).length none = some pg →
      pe + 4 ≤ pg ∨ pg + 4 ≤ pe := by
  intro pe pg he hg
  rcases track_ptr_index ExifTag.ExifOffset (d_ifd0 d) _ none pe h4 he
    with hc | ⟨ie, ee, hie, het, hev⟩
  · cases hc
  rcases track_ptr_index ExifTag.GPSOffset (d_ifd0 d) _ none pg h4 hg
    with hc | ⟨ig, eg, hig, hgt, hgv⟩
  · cases hc
  have hne : ie ≠ ig := by
    intro h
    subst h
    rw [hie] at hig
    injection hig with h
    rw [← h, het] at hgt
    exact absurd hgt (by decide)
  have hs0 := s0_length d
  omega

/-- C8 (amended): for a set that serializes into fewer than `2^32` bytes,
whose inline entries carry exactly the 4 inline payload bytes (12-byte
records), and whose top-level `ExifOffset`/`GPSOffset` entries are inline
(so no payload patch shares a slot with a sub-directory pointer
backfill), the claimed patch semantics hold throughout the TIFF body: in
IFD-0, every non-inline record's 4-byte data field decodes to the offset
`14 + 12*n + (external bytes of earlier records)` where its payload was
appended, in enqueue order; the Exif (resp. GPS) reserved pointer slot
decodes to the offset of the Exif (resp. GPS) sub-directory, and inside
each sub-directory every non-inline record's data field likewise decodes
to the offset of its appended payload.  Claim C8 as stated (without the
pointer-entry proviso) is refuted by `C8_counterexample`, and beyond
`2^32` bytes the `as u32` casts wrap. -/
theorem C8_patch_layout_amended (d : ExifData) (out : List Nat)
    (hok : d.serialize = .ok out)
    (hbound : out.length < 2 ^ 32)
    (h4 : ∀ e ∈ d.entries, e.ifd.in_ifd = true → e.ifd.data.length = 4)
    (hptr : ∀ e ∈ d_ifd0 d, (e.tag = ExifTag.ExifOffset ∨ e.tag = ExifTag.GPSOffset) →
      e.ifd.in_ifd = true) :
    ∃ body, out = (if d.mime = "image/jpeg" then exif_header ++ body else body) ∧
      (∀ (i : Nat) (ei : ExifEntry), (d_ifd0 d).get? i = some ei → ei.ifd.in_ifd = false →
        read_u32 d.le (body.drop (10 + 12 * i + 8)) =
          some (14 + 12 * (d_ifd0 d).length + ext_total ((d_ifd0 d).take i)) ∧
        seg body (14 + 12 * (d_ifd0 d).length + ext_total ((d_ifd0 d).take i))
          ei.ifd.data.length = ei.ifd.data) ∧
      (∀ pe : Nat, track_ptr ExifTag.ExifOffset (d_ifd0 d) (s0_of d).length none = some pe →
        d_exif d ≠ [] →
        ∃ se, read_u32 d.le (body.drop pe) = some se ∧
          ∀ (j : Nat) (ej : ExifEntry), (d_exif d).get? j = some ej →
            ej.ifd.in_ifd = false →
            read_u32 d.le (body.drop (se + 2 + 12 * j + 8)) =
              some (se + 2 + 12 * (d_exif d).length + 4 + ext_total ((d_exif d).take j)) ∧
            seg body (se + 2 + 12 * (d_exif d).length + 4 + ext_total ((d_exif d).take j))
              ej.ifd.data.length = ej.ifd.data) ∧
      (∀ pg : Nat, track_ptr ExifTag.GPSOffset (d_ifd0 d) (s0_of d).length none = some pg →
        d_gps d ≠ [] →
        ∃ sg, read_u32 d.le (body.drop pg) = some sg ∧
          ∀ (j : Nat) (ej : ExifEntry), (d_gps d).get? j = some ej →
            ej.ifd.in_ifd = false →
            read_u32 d.le (body.drop (sg + 2 + 12 * j + 8)) =
              some (sg + 2 + 12 * (d_gps d).length + 4 + ext_total ((d_gps d).take j)) ∧
            seg body (sg + 2 + 12 * (d_gps d).length + 4 + ext_total ((d_gps d).take j))
              ej.ifd.data.length = ej.ifd.data) := by
  have hconds : ¬(d_ifd1 d ≠ [] ∨
      (∃ e ∈ d_ifd0 d ++ d_exif d ++ d_gps d, e.ifd.nspace ≠ Namespace.Standard) ∨
      (d_exif d ≠ [] ∧ ¬∃ e ∈ d_ifd0 d, e.tag = ExifTag.ExifOffset) ∨
      (d_gps d ≠ [] ∧ ¬∃ e ∈ d_ifd0 d, e.tag = ExifTag.GPSOffset)) := by
    intro hc
    obtain ⟨err, herr⟩ := serialize_err_conditions d hc
    rw [hok] at herr
    cases herr
  push_neg at hconds
  obtain ⟨hh1, hh2, hh3, hh4⟩ := hconds
  have hser := serialize_success d hh1
    (fun e he => hh2 e (List.mem_append_left _ (List.mem_append_left _ he)))
    (fun e he => hh2 e (List.mem_append_left _ (List.mem_append_right _ he)))
    (fun e he => hh2 e (List.mem_append_right _ he)) hh3 hh4
  have hout : (if d.mime = "image/jpeg" then exif_header ++ stage3_of d
      else stage3_of d) = out := Except.ok.inj (hser.symm.trans hok)
  have hlen3 : (stage3_of d).length < 2 ^ 32 := by
    rw [← hout] at hbound
    by_cases hm : d.mime = "image/jpeg"
    · rw [if_pos hm] at hbound
      simp only [List.length_append] at hbound
      omega
    · rw [if_neg hm] at hbound
      exact hbound
  have hlen2 : (stage2_of d).length < 2 ^ 32 := lt_of_le_of_lt (stage3_ge d) hlen3
  have hlen1 : (s1_of d).length < 2 ^ 32 := lt_of_le_of_lt (stage2_ge d) hlen2
  have h4_0 : ∀ e ∈ d_ifd0 d, e.ifd.in_ifd = true → e.ifd.data.length = 4 :=
    fun e he => h4 e (List.mem_of_mem_filter he)
  have h4_e : ∀ e ∈ d_exif d, e.ifd.in_ifd = true → e.ifd.data.length = 4 :=
    fun e he => h4 e (List.mem_of_mem_filter he)
  have h4_g : ∀ e ∈ d_gps d, e.ifd.in_ifd = true → e.ifd.data.length = 4 :=
    fun e he => h4 e (List.mem_of_mem_filter he)
  have hs0 := s0_length d
  have hs1len : (s1_of d).length =
      14 + 12 * (d_ifd0 d).length + ext_total (d_ifd0 d) := by
    have h := s1_of_length d
    rw [records_length_of_4 _ h4_0, patch_total_entry_patches, hs0] at h
    omega
  refine ⟨stage3_of d, hout.symm, ?_, ?_, ?_⟩
  · -- IFD-0 record fields and payloads
    intro i ei hi hext
    have hilt := get_some_lt _ _ _ hi
    have hextle := ext_total_take_le (d_ifd0 d) i ei hi hext
    have hnw0 : (s0_of d).length + 12 * (d_ifd0 d).length + 4 + ext_total (d_ifd0 d) ≤
        2 ^ 32 := by
      rw [hs0]
      omega
    have hfl := directory_layout_facts d.le (s0_of d) (d_ifd0 d) h4_0 hnw0 i ei hi hext
    rw [show apply_patches d.le (s0_of d ++ records (d_ifd0 d) ++ [0, 0, 0, 0])
        (entry_patches (d_ifd0 d) (s0_of d).length) = s1_of d from rfl] at hfl
    rw [hs0] at hfl
    rw [show 10 + 12 * (d_ifd0 d).length + 4 + ext_total ((d_ifd0 d).take i) =
        14 + 12 * (d_ifd0 d).length + ext_total ((d_ifd0 d).take i) from by omega] at hfl
    have hdisjGf := track_ptr_field_disjoint d ExifTag.GPSOffset h4_0 hptr (Or.inr rfl)
      i ei hi hext
    have hdisjEf := track_ptr_field_disjoint d ExifTag.ExifOffset h4_0 hptr (Or.inl rfl)
      i ei hi hext
    have hleE := track_ptr_le d ExifTag.ExifOffset h4_0
    have hleG := track_ptr_le d ExifTag.GPSOffset h4_0
    have hfield : seg (stage3_of d) (10 + 12 * i + 8) 4 =
        u32_bytes d.le (14 + 12 * (d_ifd0 d).length + ext_total ((d_ifd0 d).take i)) := by
      rw [stage3_stable d (le_of_lt hlen3) (10 + 12 * i + 8) 4
        (le_trans (by omega) (le_trans (le_of_eq hs1len.symm) (stage2_ge d)))
        (fun p hp => by have := hdisjGf p hp; omega)]
      rw [stage2_stable d (le_of_lt hlen2) (10 + 12 * i + 8) 4 (by omega)
        (fun p hp => by have := hdisjEf p hp; omega)]
      exact hfl.1
    have hpay : seg (stage3_of d)
        (14 + 12 * (d_ifd0 d).length + ext_total ((d_ifd0 d).take i))
        ei.ifd.data.length = ei.ifd.data := by
      rw [stage3_stable d (le_of_lt hlen3)
        (14 + 12 * (d_ifd0 d).length + ext_total ((d_ifd0 d).take i)) ei.ifd.data.length
        (le_trans (by omega) (le_trans (le_of_eq hs1len.symm) (stage2_ge d)))
        (fun p hp => by have := hleG p hp; omega)]
      rw [stage2_stable d (le_of_lt hlen2)
        (14 + 12 * (d_ifd0 d).length + ext_total ((d_ifd0 d).take i)) ei.ifd.data.length
        (by omega)
        (fun p hp => by have := hleE p hp; omega)]
      exact hfl.2
    refine ⟨?_, hpay⟩
    exact read_u32_of_seg d.le (stage3_of d) (10 + 12 * i + 8) _ hfield (by omega)
  · -- Exif sub-directory
    intro pe hpe hde
    have hpeb := track_ptr_from_none_bounds ExifTag.ExifOffset (d_ifd0 d) _ pe hpe
    rw [hs0, records_length_of_4 _ h4_0] at hpeb
    have hpe4 : pe + 4 ≤ (s1_of d).length := by omega
    rcases hde' : d_exif d with - | ⟨e0, erest⟩
    · exact absurd hde' hde
    rw [← hde']
    have hstage2 : stage2_of d = sub_stage d.le (s1_of d) (d_exif d) pe := by
      rw [stage2_of, hpe, hde']
    have hbnd2 : (sub_stage d.le (s1_of d) (d_exif d) pe).length ≤ 2 ^ 32 := by
      rw [← hstage2]
      exact le_of_lt hlen2
    have hsub := sub_stage_layout d.le (s1_of d) (d_exif d) pe h4_e hpe4 hbnd2
    rw [← hstage2] at hsub
    have hreadpe : read_u32 d.le ((stage3_of d).drop pe) = some (s1_of d).length := by
      have hseg2 : seg (stage3_of d) pe 4 = u32_bytes d.le (s1_of d).length := by
        rw [stage3_stable d (le_of_lt hlen3) pe 4 (le_trans hpe4 (stage2_ge d))
          (fun p hp => by
            have := track_ptr_pair_disjoint d h4_0 pe p hpe hp
            omega)]
        exact hsub.1
      exact read_u32_of_seg d.le _ pe _ hseg2 hlen1
    refine ⟨(s1_of d).length, hreadpe, ?_⟩
    intro j ej hj hext
    have hjlt := get_some_lt _ _ _ hj
    have hextle := ext_total_take_le (d_exif d) j ej hj hext
    have hf := hsub.2 j ej hj hext
    have hst2len : (stage2_of d).length = (s1_of d).length + 2 + 12 * (d_exif d).length + 4 +
        ext_total (d_exif d) := by
      rw [hstage2, sub_stage_length, records_length_of_4 _ h4_e, patch_total_entry_patches]
    have hleG := track_ptr_le d ExifTag.GPSOffset h4_0
    have hfield : seg (stage3_of d) ((s1_of d).length + 2 + 12 * j + 8) 4 =
        u32_bytes d.le ((s1_of d).length + 2 + 12 * (d_exif d).length + 4 +
          ext_total ((d_exif d).take j)) := by
      rw [stage3_stable d (le_of_lt hlen3) _ 4 (by omega)
        (fun p hp => by have := hleG p hp; omega)]
      exact hf.1
    have hpay : seg (stage3_of d) ((s1_of d).length + 2 + 12 * (d_exif d).length + 4 +
        ext_total ((d_exif d).take j)) ej.ifd.data.length = ej.ifd.data := by
      rw [stage3_stable d (le_of_lt hlen3) _ ej.ifd.data.length (by omega)
        (fun p hp => by have := hleG p hp; omega)]
      exact hf.2
    exact ⟨read_u32_of_seg d.le _ _ _ hfield (by omega), hpay⟩
  · -- GPS sub-directory
    intro pg hpg hdg
    have hpgb := track_ptr_from_none_bounds ExifTag.GPSOffset (d_ifd0 d) _ pg hpg
    rw [hs0, records_length_of_4 _ h4_0] at hpgb
    have hpg4 : pg + 4 ≤ (stage2_of d).length := by
      have := stage2_ge d
      omega
    rcases hdg' : d_gps d with - | ⟨g0, grest⟩
    · exact absurd hdg' hdg
    rw [← hdg']
    have hstage3 : stage3_of d = sub_stage d.le (stage2_of d) (d_gps d) pg := by
      rw [stage3_of, hpg, hdg']
    have hbnd3 : (sub_stage d.le (stage2_of d) (d_gps d) pg).length ≤ 2 ^ 32 := by
      rw [← hstage3]
      exact le_of_lt hlen3
    have hsub := sub_stage_layout d.le (stage2_of d) (d_gps d) pg h4_g hpg4 hbnd3
    rw [← hstage3] at hsub
    refine ⟨(stage2_of d).length, read_u32_of_seg d.le _ pg _ hsub.1 hlen2, ?_⟩
    intro j ej hj hext
    have hextle := ext_total_take_le (d_gps d) j ej hj hext
    have hf := hsub.2 j ej hj hext
    have hst3len : (stage3_of d).length = (stage2_of d).length + 2 +
        12 * (d_gps d).length + 4 + ext_total (d_gps d) := by
      rw [hstage3, sub_stage_length, records_length_of_4 _ h4_g, patch_total_entry_patches]
    exact ⟨read_u32_of_seg d.le _ _ _ hf.1 (by omega), hf.2⟩

/-- Witness entries for C8 (amended): an inline `ExifOffset` pointer. -/
def c8w_eP : ExifEntry where
  nspace := .Standard
  tag := ExifTag.ExifOffset
  ifd := { nspace := .Standard, tag := 0x8769, format := .U32, count := 1,
           data := [0, 0, 0, 0], ifd_data := [0, 0, 0, 0], ext_data := [], le := true }
  value := .U32 [0]
  unit := "none"
  value_more_readable := ""
  kind := .Ifd0

/-- An inline `GPSOffset` pointer entry. -/
def c8w_eG : ExifEntry where
  nspace := .Standard
  tag := ExifTag.GPSOffset
  ifd := { nspace := .Standard, tag := 0x8825, format := .U32, count := 1,
           data := [0, 0, 0, 0], ifd_data := [0, 0, 0, 0], ext_data := [], le := true }
  value := .U32 [0]
  unit := "none"
  value_more_readable := ""
  kind := .Ifd0

/-- A non-inline IFD-0 entry with a 5-byte external payload. -/
def c8w_eD : ExifEntry where
  nspace := .Standard
  tag := ExifTag.Orientation
  ifd := { nspace := .Standard, tag := 0x0112, format := .Ascii, count := 5,
           data := [65, 66, 67, 68, 0], ifd_data := [26, 0, 0, 0], ext_data := [65, 66, 67, 68, 0],
           le := true }
  value := .Ascii "ABCD"
  unit := "none"
  value_more_readable := "ABCD"
  kind := .Ifd0

/-- A non-inline Exif-group entry with a 6-byte external payload. -/
def c8w_eX : ExifEntry where
  nspace := .Standard
  tag := ExifTag.ExifVersion
  ifd := { nspace := .Standard, tag := 0x9000, format := .Ascii, count := 6,
           data := [1, 2, 3, 4, 5, 6], ifd_data := [0, 0, 0, 0], ext_data := [1, 2, 3, 4, 5, 6],
           le := true }
  value := .Ascii "x"
  unit := "none"
  value_more_readable := ""
  kind := .Exif

/-- An inline GPS-group entry. -/
def c8w_eGp : ExifEntry where
  nspace := .Standard
  tag := ExifTag.GPSLatitudeRef
  ifd := { nspace := .Standard, tag := 0x1, format := .Ascii, count := 2,
           data := [78, 0, 0, 0], ifd_data := [78, 0, 0, 0], ext_data := [], le := true }
  value := .Ascii "N"
  unit := "none"
  value_more_readable := "N"
  kind := .Gps

/-- The C8 witness set: pointer entries inline, one external entry in
IFD-0, Exif and GPS groups present. -/
def c8w : ExifData := ⟨"image/tiff", [c8w_eP, c8w_eG, c8w_eD, c8w_eX, c8w_eGp], true⟩

/-- The 97-byte buffer `serialize` produces for `c8w`. -/
def c8w_out : List Nat :=
  [73, 73, 42, 0, 8, 0, 0, 0, 3, 0, 105, 135, 4, 0, 1, 0, 0, 0, 55, 0, 0, 0, 37, 136, 4, 0,
   1, 0, 0, 0, 79, 0, 0, 0, 18, 1, 2, 0, 5, 0, 0, 0, 50, 0, 0, 0, 0, 0, 0, 0, 65, 66, 67,
   68, 0, 1, 0, 0, 144, 2, 0, 6, 0, 0, 0, 73, 0, 0, 0, 0, 0, 0, 0, 1, 2, 3, 4, 5, 6, 1,
   0, 1, 0, 2, 0, 2, 0, 0, 0, 78, 0, 0, 0, 0, 0, 0, 0]

set_option maxRecDepth 8000 in
/-- Witness for C8 (amended): the layout theorem instantiated at `c8w`,
every hypothesis discharged by evaluation. -/
theorem C8_amended_witness :
    ExifData.serialize c8w = .ok c8w_out ∧
    c8w_out.length < 2 ^ 32 ∧
    (∀ e ∈ c8w.entries, e.ifd.in_ifd = true → e.ifd.data.length = 4) ∧
    (∀ e ∈ d_ifd0 c8w, (e.tag = ExifTag.ExifOffset ∨ e.tag = ExifTag.GPSOffset) →
      e.ifd.in_ifd = true) ∧
    (∃ body, c8w_out = (if c8w.mime = "image/jpeg" then exif_header ++ body else body) ∧
      (∀ (i : Nat) (ei : ExifEntry), (d_ifd0 c8w).get? i = some ei → ei.ifd.in_ifd = false →
        read_u32 c8w.le (body.drop (10 + 12 * i + 8)) =
          some (14 + 12 * (d_ifd0 c8w).length + ext_total ((d_ifd0 c8w).take i)) ∧
        seg body (14 + 12 * (d_ifd0 c8w).length + ext_total ((d_ifd0 c8w).take i))
          ei.ifd.data.length = ei.ifd.data) ∧
      (∀ pe : Nat, track_ptr ExifTag.ExifOffset (d_ifd0 c8w) (s0_of c8w).length none =
          some pe →
        d_exif c8w ≠ [] →
        ∃ se, read_u32 c8w.le (body.drop pe) = some se ∧
          ∀ (j : Nat) (ej : ExifEntry), (d_exif c8w).get? j = some ej →
            ej.ifd.in_ifd = false →
            read_u32 c8w.le (body.drop (se + 2 + 12 * j + 8)) =
              some (se + 2 + 12 * (d_exif c8w).length + 4 + ext_total ((d_exif c8w).take j)) ∧
            seg body (se + 2 + 12 * (d_exif c8w).length + 4 + ext_total ((d_exif c8w).take j))
              ej.ifd.data.length = ej.ifd.data) ∧
      (∀ pg : Nat, track_ptr ExifTag.GPSOffset (d_ifd0 c8w) (s0_of c8w).length none =
          some pg →
        d_gps c8w ≠ [] →
        ∃ sg, read_u32 c8w.le (body.drop pg) = some sg ∧
          ∀ (j : Nat) (ej : ExifEntry), (d_gps c8w).get? j = some ej →
            ej.ifd.in_ifd = false →
            read_u32 c8w.le (body.drop (sg + 2 + 12 * j + 8)) =
              some (sg + 2 + 12 * (d_gps c8w).length + 4 + ext_total ((d_gps c8w).take j)) ∧
            seg body (sg + 2 + 12 * (d_gps c8w).length + 4 + ext_total ((d_gps c8w).take j))
              ej.ifd.data.length = ej.ifd.data)) :=
  ⟨by rfl, by decide, by decide, by decide,
    C8_patch_layout_amended c8w c8w_out (by rfl) (by decide) (by decide) (by decide)⟩

end Rexif
